import Mathlib

/-
Verification of the compiler front end of `mrcaidev/fundamentals-of-compiler`
(a line-oriented lexer and an LL(1) recursive-descent parser for a minimal
Pascal-like language), as a shallow embedding in Lean.

Sources embedded:
  * `src/token.ts`   — the `TokenType` enumeration and the `Token` shape;
  * `src/lexer.ts`   — the batch lexer (the variant that tracks line numbers,
    emits `END_OF_LINE`/`END_OF_FILE` sentinels and collects per-line errors);
  * `src/parser.ts`  — the `Parser` class: recursive-descent parsing, the
    variable/procedure symbol tables, soft/fatal error handling.

Modelling conventions, each noted again at the definition it concerns:
  * file I/O (reading the source / token ledgers, writing result ledgers) is
    out of scope; the lexer takes the character list of the already-trimmed
    source text and the parser takes the token list directly;
  * the source stores every diagnostic as the already-rendered string
    `Line {line}: {message}`; here an error is the pair `⟨line, message⟩`
    and `renderError` recovers the rendered string;
  * reading past the end of a cursor in the TypeScript source yields
    `undefined` and the next property access raises a `TypeError`, which the
    driver's `catch (error)` block treats like any other fatal error; this is
    modelled as a fatal outcome carrying `typeErrorMessage`;
  * the recursion of the mutually recursive `parseX` methods is expressed as
    one structurally recursive interpreter `run` over a fuel counter and a
    `Rule` tag naming the method; every non-recursive method is an ordinary
    definition of the same name.
-/

namespace Fc

/-- Token kinds from `src/token.ts` (`enum TokenType`), together with the
sentinel kinds `END_OF_LINE` and `END_OF_FILE` emitted by the lexer. -/
inductive TokenType where
  | BEGIN
  | END
  | INTEGER
  | IF
  | THEN
  | ELSE
  | FUNCTION
  | READ
  | WRITE
  | IDENTIFIER
  | CONSTANT
  | EQUAL
  | NOT_EQUAL
  | LESS_THAN_OR_EQUAL
  | LESS_THAN
  | GREATER_THAN_OR_EQUAL
  | GREATER_THAN
  | ADD
  | SUBTRACT
  | MULTIPLY
  | DIVIDE
  | ASSIGN
  | LEFT_PARENTHESES
  | RIGHT_PARENTHESES
  | SEMICOLON
  | END_OF_LINE
  | END_OF_FILE
deriving DecidableEq, Repr

/-- A token as produced by the batch lexer: a kind and the literal text
(`value`); the sentinels carry the fixed labels `"EOLN"` and `"EOF"`. -/
structure Token where
  type : TokenType
  value : String
deriving DecidableEq, Repr

/-- One diagnostic. The source stores the rendered string
`Line {line}: {message}`; the two fields are kept separate here and
`renderError` recovers the source's string. -/
structure Err where
  line : Nat
  msg : String
deriving DecidableEq, Repr

/-- Rendering of an error record, exactly as the source interpolates it. -/
def renderError (e : Err) : String :=
  "Line " ++ toString e.line ++ ": " ++ e.msg

/-- Message of the JavaScript `TypeError` raised when a property of
`undefined` is accessed, i.e. when the cursor is read past its end. -/
def typeErrorMessage : String := "Cannot read properties of undefined"

/-! ## Lexer (`src/lexer.ts`) -/

/-- `Lexer.isLetter`: the regex `/^[a-z]$/i`, i.e. one ASCII letter. -/
def isLetter (c : Char) : Bool :=
  ('a' ≤ c && c ≤ 'z') || ('A' ≤ c && c ≤ 'Z')

/-- `Lexer.isDigit`: the regex `/^\d$/`, i.e. one ASCII digit. -/
def isDigit (c : Char) : Bool :=
  '0' ≤ c && c ≤ '9'

/-- A letter or a digit: the characters that may continue an identifier. -/
def isAlnum (c : Char) : Bool :=
  isLetter c || isDigit c

/-- Code point of a character after ASCII lower-casing. -/
def lowerChar (c : Char) : Nat :=
  if 'A' ≤ c && c ≤ 'Z' then c.toNat + 32 else c.toNat

/-- `Lexer.getKeywordType`: the `value.toLowerCase()` comparison against the
keyword set, expressed character-wise (ASCII lower-casing, which agrees with
JavaScript `toLowerCase` on every character the lexer can pass here) so the
definition is kernel-computable. -/
def getKeywordType (value : String) : Option TokenType :=
  if value.data.map lowerChar = "begin".data.map Char.toNat then some .BEGIN
  else if value.data.map lowerChar = "end".data.map Char.toNat then some .END
  else if value.data.map lowerChar = "integer".data.map Char.toNat then some .INTEGER
  else if value.data.map lowerChar = "if".data.map Char.toNat then some .IF
  else if value.data.map lowerChar = "then".data.map Char.toNat then some .THEN
  else if value.data.map lowerChar = "else".data.map Char.toNat then some .ELSE
  else if value.data.map lowerChar = "function".data.map Char.toNat then some .FUNCTION
  else if value.data.map lowerChar = "read".data.map Char.toNat then some .READ
  else if value.data.map lowerChar = "write".data.map Char.toNat then some .WRITE
  else none

/-- `MAX_IDENTIFIER_LENGTH` from `src/lexer.ts`. -/
def MAX_IDENTIFIER_LENGTH : Nat := 16

/-- Result of one `Lexer.getNextToken` call: either a token or a lexical
error (the thrown-and-caught `Error`), together with the updated line
counter and the remaining characters. -/
structure LexOut where
  out : Sum Token Err
  line : Nat
  rest : List Char
deriving DecidableEq, Repr

/-- One step of the lexer: `Lexer.getNextToken`. Skips the run of spaces,
consumes one maximal lexeme and classifies it. When the cursor is exhausted
after the spaces, the source reads `undefined`, fails every character test
and throws `Invalid character 'undefined'`; this cannot happen on trimmed
input but is modelled faithfully. On a misused colon only the colon itself
has been consumed, so scanning resumes at the very next character. -/
def lexStep (line : Nat) (cs : List Char) : LexOut :=
  match cs.dropWhile (fun c => c = ' ') with
  | [] => ⟨Sum.inr ⟨line, "Invalid character 'undefined'"⟩, line, []⟩
  | c :: rest =>
    if isLetter c then
      let value := String.mk (c :: rest.takeWhile isAlnum)
      let rest2 := rest.dropWhile isAlnum
      match getKeywordType value with
      | some kt => ⟨Sum.inl ⟨kt, value⟩, line, rest2⟩
      | none =>
        if value.length ≤ MAX_IDENTIFIER_LENGTH then
          ⟨Sum.inl ⟨.IDENTIFIER, value⟩, line, rest2⟩
        else
          ⟨Sum.inr ⟨line, "Identifier name '" ++ value ++ "' exceeds 16 characters"⟩,
            line, rest2⟩
    else if isDigit c then
      ⟨Sum.inl ⟨.CONSTANT, String.mk (c :: rest.takeWhile isDigit)⟩, line,
        rest.dropWhile isDigit⟩
    else if c = '=' then ⟨Sum.inl ⟨.EQUAL, "="⟩, line, rest⟩
    else if c = '-' then ⟨Sum.inl ⟨.SUBTRACT, "-"⟩, line, rest⟩
    else if c = '*' then ⟨Sum.inl ⟨.MULTIPLY, "*"⟩, line, rest⟩
    else if c = '(' then ⟨Sum.inl ⟨.LEFT_PARENTHESES, "("⟩, line, rest⟩
    else if c = ')' then ⟨Sum.inl ⟨.RIGHT_PARENTHESES, ")"⟩, line, rest⟩
    else if c = '<' then
      if rest.head? = some '=' then ⟨Sum.inl ⟨.LESS_THAN_OR_EQUAL, "<="⟩, line, rest.tail⟩
      else if rest.head? = some '>' then ⟨Sum.inl ⟨.NOT_EQUAL, "<>"⟩, line, rest.tail⟩
      else ⟨Sum.inl ⟨.LESS_THAN, "<"⟩, line, rest⟩
    else if c = '>' then
      if rest.head? = some '=' then ⟨Sum.inl ⟨.GREATER_THAN_OR_EQUAL, ">="⟩, line, rest.tail⟩
      else ⟨Sum.inl ⟨.GREATER_THAN, ">"⟩, line, rest⟩
    else if c = ':' then
      if rest.head? = some '=' then ⟨Sum.inl ⟨.ASSIGN, ":="⟩, line, rest.tail⟩
      else ⟨Sum.inr ⟨line, "Misused colon"⟩, line, rest⟩
    else if c = ';' then ⟨Sum.inl ⟨.SEMICOLON, ";"⟩, line, rest⟩
    else if c = '\n' then ⟨Sum.inl ⟨.END_OF_LINE, "EOLN"⟩, line + 1, rest⟩
    else ⟨Sum.inr ⟨line, "Invalid character '" ++ String.mk [c] ++ "'"⟩, line, rest⟩

/-- The `while (this.cursor.isOpen())` loop of `Lexer.tokenize`, collecting
tokens and caught lexical errors in order. The fuel argument only serves
Lean's termination; every step consumes at least one character, so any fuel
of at least the input length gives the loop's full output. -/
def lexLoop : Nat → Nat → List Char → List Token × List Err
  | 0, _, _ => ([], [])
  | _ + 1, _, [] => ([], [])
  | fuel + 1, line, c :: cs =>
    let step := lexStep line (c :: cs)
    let rec2 := lexLoop fuel step.line step.rest
    match step.out with
    | Sum.inl t => (t :: rec2.1, rec2.2)
    | Sum.inr e => (rec2.1, e :: rec2.2)

/-- `Lexer.tokenize` on the character list of the (already trimmed) source
text: the token sequence, ending in the `END_OF_FILE` sentinel, and the
collected lexical errors. The file writes of the source are out of scope. -/
def tokenize (fuel : Nat) (cs : List Char) : List Token × List Err :=
  ((lexLoop fuel 1 cs).1 ++ [⟨.END_OF_FILE, "EOF"⟩], (lexLoop fuel 1 cs).2)

/-! ## Parser data model (`src/parser.ts`) -/

/-- A variable-table record (`type Variable` in `src/parser.ts`): `kind` is
`0` for a local and `1` for a parameter; `address` is the globally ascending
storage slot (the counter starts at `-1` and is pre-incremented). -/
structure Variable where
  name : String
  procedure : String
  kind : Nat
  type : String
  level : Nat
  address : Int
deriving DecidableEq, Repr

/-- A procedure-table record (`type Procedure` in `src/parser.ts`). -/
structure Procedure where
  name : String
  type : String
  level : Nat
  firstVariableAddress : Int
  lastVariableAddress : Int
deriving DecidableEq, Repr

/-- The mutable state of the `Parser` instance, with the cursor replaced by
the list of remaining tokens. -/
structure PState where
  line : Nat
  procedureStack : List String
  currentLevel : Nat
  currentVariableAddress : Int
  shouldAddError : Bool
  correctTokens : List Token
  vars : List Variable
  procedures : List Procedure
  errors : List Err
  tokens : List Token
deriving DecidableEq, Repr

/-- The parser's initial state over a given token sequence (the field
initialisers of the `Parser` class). -/
def initState (ts : List Token) : PState :=
  ⟨1, ["main"], 1, -1, true, [], [], [], [], ts⟩

/-- `Parser.addError`: record a soft error for the current line unless the
per-line suppression flag is down; recording lowers the flag. -/
def addError (msg : String) (s : PState) : PState :=
  if s.shouldAddError then
    { s with shouldAddError := false, errors := s.errors ++ [⟨s.line, msg⟩] }
  else s

/-- `Parser.goToNextLine`: consume every `END_OF_LINE` token at the cursor,
emitting each to the cleaned stream, bumping the line counter and raising
the error-suppression flag per token consumed. The source's `while` loop is
expressed with `takeWhile`/`dropWhile`. -/
def goToNextLine (s : PState) : PState :=
  let eolns := s.tokens.takeWhile (fun t => t.type = TokenType.END_OF_LINE)
  { s with
    tokens := s.tokens.dropWhile (fun t => t.type = TokenType.END_OF_LINE),
    correctTokens := s.correctTokens ++ eolns,
    line := s.line + eolns.length,
    shouldAddError := s.shouldAddError || !eolns.isEmpty }

/-- `Parser.consumeToken`: skip line boundaries, consume one token into the
cleaned stream, skip line boundaries again. On an exhausted cursor the
source reads `undefined`; that is the `none` result. -/
def consumeToken (s : PState) : Option Token × PState :=
  match (goToNextLine s).tokens with
  | [] => (none, goToNextLine s)
  | t :: rest =>
    (some t, goToNextLine
      { goToNextLine s with tokens := rest, correctTokens := (goToNextLine s).correctTokens ++ [t] })

/-- The owning procedure tag for new symbols: `this.procedureStack[0] ?? ""`. -/
def stackHead (s : PState) : String := s.procedureStack.headD ("")

/-- `Parser.findDuplicateVariable`: first local (kind 0) with this name at
exactly the current level. -/
def findDuplicateVariable (name : String) (s : PState) : Option Variable :=
  s.vars.find? fun v =>
    v.name == name && v.kind == 0 && v.level == s.currentLevel

/-- `Parser.findVariable`: first local (kind 0) with this name at a level at
most the current level. Note the source matches `kind === 0` only, so
parameters (kind 1) are never found by this lookup. -/
def findVariable (name : String) (s : PState) : Option Variable :=
  s.vars.find? fun v =>
    v.name == name && v.kind == 0 && decide (v.level ≤ s.currentLevel)

/-- `Parser.findDuplicateParameter`: first parameter (kind 1) with this name
at exactly `currentLevel + 1`. -/
def findDuplicateParameter (name : String) (s : PState) : Option Variable :=
  s.vars.find? fun v =>
    v.name == name && v.kind == 1 && v.level == s.currentLevel + 1

/-- `Parser.findDuplicateProcedure`: first procedure with this name at
exactly `currentLevel + 1`. -/
def findDuplicateProcedure (name : String) (s : PState) : Option Procedure :=
  s.procedures.find? fun p =>
    p.name == name && p.level == s.currentLevel + 1

/-- `Parser.findProcedure`: first procedure with this name at a level at
most `currentLevel + 1`. -/
def findProcedure (name : String) (s : PState) : Option Procedure :=
  s.procedures.find? fun p =>
    p.name == name && decide (p.level ≤ s.currentLevel + 1)

/-- Replace the first list element satisfying `p` by its image under `f`;
models the in-place mutation of the record returned by `Array.find`. -/
def updateFirst (p : α → Bool) (f : α → α) : List α → List α
  | [] => []
  | x :: xs => if p x then f x :: xs else x :: updateFirst p f xs

/-- The push of `Parser.registerVariable`'s non-duplicate branch: a kind-0
record tagged with the owning procedure and the current level, at the
pre-incremented next address. -/
def pushVariable (name : String) (s : PState) : PState :=
  { s with
    currentVariableAddress := s.currentVariableAddress + 1,
    vars := s.vars ++
      [⟨name, stackHead s, 0, "integer", s.currentLevel, s.currentVariableAddress + 1⟩] }

/-- The second half of `Parser.registerVariable`: when the owning procedure
name resolves via `findProcedure`, mutate that (first matching) record,
setting `firstVariableAddress` if still unset and extending
`lastVariableAddress` to the just-assigned address
(`s.currentVariableAddress` after the push). -/
def closeRange (s : PState) : PState :=
  match findProcedure (stackHead s) s with
  | none => s
  | some _ =>
    { s with procedures :=
        (updateFirst
          (fun p => p.name == stackHead s && decide (p.level ≤ s.currentLevel + 1))
          (fun p => { p with
            firstVariableAddress :=
              if p.firstVariableAddress = -1 then s.currentVariableAddress
              else p.firstVariableAddress,
            lastVariableAddress := s.currentVariableAddress })
          s.procedures) }

/-- `Parser.registerVariable`: on a duplicate, only a soft error; otherwise
push the record and close/extend the owning procedure's address range. -/
def registerVariable (name : String) (s : PState) : PState :=
  match findDuplicateVariable name s with
  | some _ => addError ("Variable '" ++ name ++ "' has already been declared") s
  | none => closeRange (pushVariable name s)

/-- `Parser.registerParameter`: on a duplicate, only a soft error; otherwise
push a kind-1 record at level `currentLevel + 1` and the next address. The
procedure's address-range fields are not touched here. -/
def registerParameter (name : String) (s : PState) : PState :=
  match findDuplicateParameter name s with
  | some _ => addError ("Parameter '" ++ name ++ "' has already been declared") s
  | none =>
    { s with
      currentVariableAddress := s.currentVariableAddress + 1,
      vars := s.vars ++
        [⟨name, stackHead s, 1, "integer", s.currentLevel + 1, s.currentVariableAddress + 1⟩] }

/-- `Parser.registerProcedure`: on a duplicate, only a soft error (and no
push onto the name stack); otherwise push a record at level
`currentLevel + 1` with an unset address range, and unshift the name. -/
def registerProcedure (name : String) (s : PState) : PState :=
  match findDuplicateProcedure name s with
  | some _ => addError ("Procedure '" ++ name ++ "' has already been declared") s
  | none =>
    { s with
      procedures := s.procedures ++ [⟨name, "integer", s.currentLevel + 1, -1, -1⟩],
      procedureStack := name :: s.procedureStack }

/-- `Parser.translateToken`: display names used in `Expect X, but got Y`
messages. The source's lookup table has no entry for `ADD` or `DIVIDE`, so
there the interpolation would print `undefined`. -/
def translateToken : TokenType → String
  | .BEGIN => "'begin'"
  | .END => "'end'"
  | .INTEGER => "'integer'"
  | .IF => "'if'"
  | .THEN => "'then'"
  | .ELSE => "'else'"
  | .FUNCTION => "'function'"
  | .READ => "'read'"
  | .WRITE => "'write'"
  | .IDENTIFIER => "identifier"
  | .CONSTANT => "constant"
  | .EQUAL => "'='"
  | .NOT_EQUAL => "'<>'"
  | .LESS_THAN_OR_EQUAL => "'<='"
  | .LESS_THAN => "'<'"
  | .GREATER_THAN_OR_EQUAL => "'>='"
  | .GREATER_THAN => "'>'"
  | .SUBTRACT => "'-'"
  | .MULTIPLY => "'*'"
  | .ASSIGN => "':='"
  | .LEFT_PARENTHESES => "'('"
  | .RIGHT_PARENTHESES => "')'"
  | .SEMICOLON => "';'"
  | .END_OF_LINE => "EOLN"
  | .END_OF_FILE => "EOF"
  | .ADD => "undefined"
  | .DIVIDE => "undefined"

/-- Outcome of a parsing step: normal return, a thrown fatal error carrying
the state at the throw (the JavaScript object keeps every mutation made so
far), or exhausted fuel (a modelling artifact, not a source behaviour). -/
inductive Res where
  | ok (s : PState)
  | fatal (e : Err) (s : PState)
  | gas (s : PState)
deriving DecidableEq, Repr

/-- The state carried by any outcome. -/
def Res.state : Res → PState
  | .ok s => s
  | .fatal _ s => s
  | .gas s => s

/-- Sequencing: run the continuation only on a normal return; a fatal error
(or exhausted fuel) short-circuits, like an exception unwinding. -/
def Res.andThen : Res → (PState → Res) → Res
  | .ok s, k => k s
  | r, _ => r

/-- Outcome of `Parser.match`: the consumed token (`none` when the cursor
was exhausted and `undefined` was returned) or a fatal error. -/
inductive MRes where
  | ok (t : Option Token) (s : PState)
  | fatal (e : Err) (s : PState)
deriving DecidableEq, Repr

/-- Forget the consumed token. -/
def MRes.toRes : MRes → Res
  | .ok _ s => .ok s
  | .fatal e s => .fatal e s

/-- `Parser.match`: peek at the current token (a `TypeError` when the cursor
is exhausted), record a soft mismatch error when the kind differs (the given
message, or the generic `Expect X, but got Y`), then consume one token
regardless. -/
def matchTok (expectation : TokenType) (message : Option String) (s : PState) : MRes :=
  match s.tokens with
  | [] => .fatal ⟨s.line, typeErrorMessage⟩ s
  | t :: _ =>
    let s2 :=
      if t.type = expectation then s
      else addError (message.getD
        ("Expect " ++ translateToken expectation ++ ", but got '" ++ t.value ++ "'")) s
    let r := consumeToken s2
    .ok r.1 r.2

/-- Consume one token and raise the fatal error built from its value
(`Parser.throwError` after `consumeToken`, as in `parseExecution`); reading
`undefined` instead raises the `TypeError`. -/
def consumeThrow (mk : String → String) (s : PState) : Res :=
  match consumeToken s with
  | (some t, s2) => .fatal ⟨s2.line, mk t.value⟩ s2
  | (none, s2) => .fatal ⟨s2.line, typeErrorMessage⟩ s2

/-- Consume one token and record the soft error built from its value (as in
`parseAssignment`'s undefined-target branch and `parseOperator`). -/
def consumeAddError (mk : String → String) (s : PState) : Res :=
  match consumeToken s with
  | (some t, s2) => .ok (addError (mk t.value) s2)
  | (none, s2) => .fatal ⟨s2.line, typeErrorMessage⟩ s2

/-- `Parser.parseVariable`: match an identifier; when no variable record is
found, record a soft undefined-variable error and continue. -/
def parseVariable (s : PState) : Res :=
  match matchTok .IDENTIFIER none s with
  | .fatal e s2 => .fatal e s2
  | .ok none s2 => .fatal ⟨s2.line, typeErrorMessage⟩ s2
  | .ok (some t) s2 =>
    if (findVariable t.value s2).isSome then .ok s2
    else .ok (addError ("Undefined variable '" ++ t.value ++ "'") s2)

/-- `Parser.parseProcedureName`: match an identifier; when no procedure
record is found, record a soft undefined-procedure error and continue. -/
def parseProcedureName (s : PState) : Res :=
  match matchTok .IDENTIFIER none s with
  | .fatal e s2 => .fatal e s2
  | .ok none s2 => .fatal ⟨s2.line, typeErrorMessage⟩ s2
  | .ok (some t) s2 =>
    if (findProcedure t.value s2).isSome then .ok s2
    else .ok (addError ("Undefined procedure '" ++ t.value ++ "'") s2)

/-- `Parser.parseVariableDeclaration`: match an identifier and register it. -/
def parseVariableDeclaration (s : PState) : Res :=
  match matchTok .IDENTIFIER none s with
  | .fatal e s2 => .fatal e s2
  | .ok none s2 => .fatal ⟨s2.line, typeErrorMessage⟩ s2
  | .ok (some t) s2 => .ok (registerVariable t.value s2)

/-- `Parser.parseProcedureNameDeclaration`. -/
def parseProcedureNameDeclaration (s : PState) : Res :=
  match matchTok .IDENTIFIER none s with
  | .fatal e s2 => .fatal e s2
  | .ok none s2 => .fatal ⟨s2.line, typeErrorMessage⟩ s2
  | .ok (some t) s2 => .ok (registerProcedure t.value s2)

/-- `Parser.parseParameterDeclaration`. -/
def parseParameterDeclaration (s : PState) : Res :=
  match matchTok .IDENTIFIER none s with
  | .fatal e s2 => .fatal e s2
  | .ok none s2 => .fatal ⟨s2.line, typeErrorMessage⟩ s2
  | .ok (some t) s2 => .ok (registerParameter t.value s2)

/-- `Parser.parseRead`: `read ( variable )`. -/
def parseRead (s : PState) : Res :=
  ((matchTok .READ none s).toRes).andThen fun s => ((matchTok .LEFT_PARENTHESES none s).toRes).andThen fun s => (parseVariable s).andThen fun s => (matchTok .RIGHT_PARENTHESES (some ("Unmatched '('")) s).toRes

/-- `Parser.parseWrite`: `write ( variable )`. -/
def parseWrite (s : PState) : Res :=
  ((matchTok .WRITE none s).toRes).andThen fun s => ((matchTok .LEFT_PARENTHESES none s).toRes).andThen fun s => (parseVariable s).andThen fun s => (matchTok .RIGHT_PARENTHESES (some ("Unmatched '('")) s).toRes

/-- `Parser.parseOperator`: one of the six relational operators, else a soft
invalid-operator error on the consumed token. -/
def parseOperator (s : PState) : Res :=
  match s.tokens with
  | [] => .fatal ⟨s.line, typeErrorMessage⟩ s
  | t :: _ =>
    if t.type = .EQUAL then (matchTok .EQUAL none s).toRes
    else if t.type = .NOT_EQUAL then (matchTok .NOT_EQUAL none s).toRes
    else if t.type = .LESS_THAN then (matchTok .LESS_THAN none s).toRes
    else if t.type = .LESS_THAN_OR_EQUAL then (matchTok .LESS_THAN_OR_EQUAL none s).toRes
    else if t.type = .GREATER_THAN then (matchTok .GREATER_THAN none s).toRes
    else if t.type = .GREATER_THAN_OR_EQUAL then (matchTok .GREATER_THAN_OR_EQUAL none s).toRes
    else consumeAddError (fun v => v ++ " is not a valid operator") s

/-- Names of the mutually recursive `parseX` methods of the `Parser` class;
an underscore suffix mirrors the source's helper productions
(`parseDeclarations_`, `parseDeclaration_`, `parseExecutions_`,
`parseArithmeticExpression_`, `parseTerm_`). -/
inductive Rule where
  | program
  | subprogram
  | declarations
  | declarations_
  | declaration
  | declaration_
  | procedureDeclaration
  | procedureBody
  | executions
  | executions_
  | execution
  | assignment
  | arithmeticExpression
  | arithmeticExpression_
  | term
  | term_
  | factor
  | procedureCall
  | condition
  | conditionExpression
deriving DecidableEq, Repr

/-- The mutually recursive methods of the `Parser` class as one interpreter,
structurally recursive on a fuel counter; `Res.gas` reports exhausted fuel.
Each `Rule` case is the body of the same-named `parseX` method.
`hasType`-style guards peek at the current token and, as in the source,
raise a `TypeError` when the cursor is exhausted. -/
def run : Nat → Rule → PState → Res
  | 0, _, s => .gas s
  | fuel + 1, r, s =>
    match r with
    | .program =>
      (run fuel .subprogram s).andThen fun s => (matchTok .END_OF_FILE none s).toRes
    | .subprogram =>
      ((matchTok .BEGIN none s).toRes).andThen fun s => (run fuel .declarations s).andThen fun s => (run fuel .executions s).andThen fun s => (matchTok .END none s).toRes
    | .declarations =>
      (run fuel .declaration s).andThen fun s => run fuel .declarations_ s
    | .declarations_ =>
      match s.tokens with
      | [] => .fatal ⟨s.line, typeErrorMessage⟩ s
      | t :: _ =>
        if t.type = .INTEGER then
          (run fuel .declaration s).andThen fun s => run fuel .declarations_ s
        else .ok s
    | .declaration =>
      ((matchTok .INTEGER none s).toRes).andThen fun s => (run fuel .declaration_ s).andThen fun s => (matchTok .SEMICOLON none s).toRes
    | .declaration_ =>
      match s.tokens with
      | [] => .fatal ⟨s.line, typeErrorMessage⟩ s
      | t :: _ =>
        if t.type = .IDENTIFIER then parseVariableDeclaration s
        else if t.type = .FUNCTION then run fuel .procedureDeclaration s
        else consumeThrow (fun v => "'" ++ v ++ "' is not a valid variable name") s
    | .procedureDeclaration =>
      ((matchTok .FUNCTION none s).toRes).andThen fun s => (parseProcedureNameDeclaration s).andThen fun s => ((matchTok .LEFT_PARENTHESES none s).toRes).andThen fun s => (parseParameterDeclaration s).andThen fun s => ((matchTok .RIGHT_PARENTHESES (some ("Unmatched '('")) s).toRes).andThen fun s => ((matchTok .SEMICOLON none s).toRes).andThen fun s => run fuel .procedureBody s
    | .procedureBody =>
      let s0 := { s with currentLevel := s.currentLevel + 1 }
      match ((matchTok .BEGIN none s0).toRes).andThen fun s => (run fuel .declarations s).andThen fun s => (run fuel .executions s).andThen fun s => (matchTok .END none s).toRes with
      | .ok s1 =>
        .ok { s1 with currentLevel := s1.currentLevel - 1, procedureStack := s1.procedureStack.tail }
      | r1 => r1
    | .executions =>
      (run fuel .execution s).andThen fun s => run fuel .executions_ s
    | .executions_ =>
      match s.tokens with
      | [] => .fatal ⟨s.line, typeErrorMessage⟩ s
      | t :: _ =>
        if t.type = .SEMICOLON then
          ((matchTok .SEMICOLON none s).toRes).andThen fun s => (run fuel .execution s).andThen fun s => run fuel .executions_ s
        else .ok s
    | .execution =>
      match s.tokens with
      | [] => .fatal ⟨s.line, typeErrorMessage⟩ s
      | t :: _ =>
        if t.type = .READ then parseRead s
        else if t.type = .WRITE then parseWrite s
        else if t.type = .IDENTIFIER then run fuel .assignment s
        else if t.type = .IF then run fuel .condition s
        else consumeThrow (fun v =>
          "Expect executions, but got '" ++ v ++ "'. Please move all declarations to the beginning of the procedure") s
    | .assignment =>
      match s.tokens with
      | [] => .fatal ⟨s.line, typeErrorMessage⟩ s
      | t :: _ =>
        ((if (findVariable t.value s).isSome then parseVariable s
          else if (findProcedure t.value s).isSome then parseProcedureName s
          else consumeAddError (fun v => "Undefined variable or procedure '" ++ v ++ "'") s)).andThen fun s => ((matchTok .ASSIGN none s).toRes).andThen fun s => run fuel .arithmeticExpression s
    | .arithmeticExpression =>
      (run fuel .term s).andThen fun s => run fuel .arithmeticExpression_ s
    | .arithmeticExpression_ =>
      match s.tokens with
      | [] => .fatal ⟨s.line, typeErrorMessage⟩ s
      | t :: _ =>
        if t.type = .SUBTRACT then
          ((matchTok .SUBTRACT none s).toRes).andThen fun s => (run fuel .term s).andThen fun s => run fuel .arithmeticExpression_ s
        else .ok s
    | .term =>
      (run fuel .factor s).andThen fun s => run fuel .term_ s
    | .term_ =>
      match s.tokens with
      | [] => .fatal ⟨s.line, typeErrorMessage⟩ s
      | t :: _ =>
        if t.type = .MULTIPLY then
          ((matchTok .MULTIPLY none s).toRes).andThen fun s => (run fuel .factor s).andThen fun s => run fuel .term_ s
        else .ok s
    | .factor =>
      match s.tokens with
      | [] => .fatal ⟨s.line, typeErrorMessage⟩ s
      | t :: _ =>
        if t.type = .CONSTANT then (matchTok .CONSTANT none s).toRes
        else if t.type = .IDENTIFIER then
          if (findVariable t.value s).isSome then parseVariable s
          else if (findProcedure t.value s).isSome then run fuel .procedureCall s
          else consumeThrow (fun v => "Undefined variable or procedure '" ++ v ++ "'") s
        else consumeThrow (fun v => "Expect variable, procedure or constant, but got '" ++ v ++ "'") s
    | .procedureCall =>
      (parseProcedureName s).andThen fun s => ((matchTok .LEFT_PARENTHESES none s).toRes).andThen fun s => (run fuel .arithmeticExpression s).andThen fun s => (matchTok .RIGHT_PARENTHESES (some ("Unmatched '('")) s).toRes
    | .condition =>
      ((matchTok .IF none s).toRes).andThen fun s => (run fuel .conditionExpression s).andThen fun s => ((matchTok .THEN none s).toRes).andThen fun s => (run fuel .execution s).andThen fun s => ((matchTok .ELSE none s).toRes).andThen fun s => run fuel .execution s
    | .conditionExpression =>
      (run fuel .arithmeticExpression s).andThen fun s => (parseOperator s).andThen fun s => run fuel .arithmeticExpression s

/-- `Parser.parse`: run `parseProgram` from the initial state; a normal
return reports success exactly when no error was collected, a thrown fatal
error is appended to the error list with the `[FATAL]` tag and reports
failure. `none` means the fuel ran out (a modelling artifact). The ledger
writes of the source's `finally` block are out of scope. -/
def parse (fuel : Nat) (ts : List Token) : Option (Bool × PState) :=
  match run fuel .program (initState ts) with
  | .ok s => some (s.errors.isEmpty, s)
  | .fatal e s => some (false, { s with errors := s.errors ++ [⟨e.line, e.msg ++ " [FATAL]"⟩] })
  | .gas _ => none


/-! ## Statement helpers and concrete inputs -/

/-- Number of `END_OF_LINE` tokens in a token sequence. -/
def countEoln (ts : List Token) : Nat :=
  ts.countP (fun t => t.type == TokenType.END_OF_LINE)

/-- Modelled from the spec: "the number of non-empty source lines" of a
source text — split the character sequence on newlines and count the
non-empty pieces. Used only to state the original claim C8 refers to. -/
def nonemptyLineCount (cs : List Char) : Nat :=
  ((cs.splitOn '\n').filter (fun l => !l.isEmpty)).length

/-- Whether a parsing outcome is a normal (non-fatal) return. -/
def isOk : Res → Bool
  | .ok _ => true
  | _ => false

/-- Shorthand token constructors for the concrete example inputs. -/
def idTok (v : String) : Token := ⟨.IDENTIFIER, v⟩

/-- Constant token. -/
def numTok (v : String) : Token := ⟨.CONSTANT, v⟩

/-- Keyword and punctuation tokens, with their literal text as value. -/
def beginTok : Token := ⟨.BEGIN, "begin"⟩

/-- The `end` keyword token. -/
def endTok : Token := ⟨.END, "end"⟩

/-- The `integer` keyword token. -/
def intTok : Token := ⟨.INTEGER, "integer"⟩

/-- The `function` keyword token. -/
def funTok : Token := ⟨.FUNCTION, "function"⟩

/-- The `read` keyword token. -/
def readTok : Token := ⟨.READ, "read"⟩

/-- The `write` keyword token. -/
def writeTok : Token := ⟨.WRITE, "write"⟩

/-- The `;` token. -/
def semiTok : Token := ⟨.SEMICOLON, ";"⟩

/-- The `(` token. -/
def lparTok : Token := ⟨.LEFT_PARENTHESES, "("⟩

/-- The `)` token. -/
def rparTok : Token := ⟨.RIGHT_PARENTHESES, ")"⟩

/-- The `:=` token. -/
def asgTok : Token := ⟨.ASSIGN, ":="⟩

/-- The `END_OF_FILE` sentinel. -/
def eofTok : Token := ⟨.END_OF_FILE, "EOF"⟩

/-- Token sequence of `begin write(x); end` (one line), the example quoted
by claim C1. -/
def exC1 : List Token :=
  [beginTok, writeTok, lparTok, idTok ("x"), rparTok, semiTok, endTok, eofTok]

/-- Token sequence of `begin integer a; write(x) end`: the C1 example with
the mandatory declaration added and the semicolon before `end` removed, so
that the undefined reference in a write argument is actually reached. -/
def exC1write : List Token :=
  [beginTok, intTok, idTok ("a"), semiTok, writeTok, lparTok, idTok ("x"), rparTok, endTok, eofTok]

/-- Token sequence of `begin integer a; a := x end`: an undeclared
identifier in factor position. -/
def exC1factor : List Token :=
  [beginTok, intTok, idTok ("a"), semiTok, idTok ("a"), asgTok, idTok ("x"), endTok, eofTok]

/-- Token sequence of `begin integer a; z := a end`: an undeclared
identifier as assignment target. -/
def exC1target : List Token :=
  [beginTok, intTok, idTok ("a"), semiTok, idTok ("z"), asgTok, idTok ("a"), endTok, eofTok]

/-- Token sequence of `begin integer a; integer a; end` (one line), the
example quoted by claims C6 and the spec. -/
def exC6spec : List Token :=
  [beginTok, intTok, idTok ("a"), semiTok, intTok, idTok ("a"), semiTok, endTok, eofTok]

/-- Token sequence of `begin integer a 5 integer a; read(a) end` (one
line): the stray constant makes the first declaration's `match(SEMICOLON)`
record a soft error, so the duplicate declaration of `a` later on the same
line is suppressed by line-coalescing. -/
def exC6sup : List Token :=
  [beginTok, intTok, idTok ("a"), numTok ("5"), intTok, idTok ("a"), semiTok,
    readTok, lparTok, idTok ("a"), rparTok, endTok, eofTok]

/-- Token sequence of
`begin integer function f(p); begin integer b; read(p) end; f := 1 end`:
the parameter `p` is referenced inside its own procedure body. -/
def exC5 : List Token :=
  [beginTok, intTok, funTok, idTok ("f"), lparTok, idTok ("p"), rparTok, semiTok,
    beginTok, intTok, idTok ("b"), semiTok, readTok, lparTok, idTok ("p"), rparTok, endTok, semiTok,
    idTok ("f"), asgTok, numTok ("1"), endTok, eofTok]

/-- A symbol-table state with two locals named `a`: the outer one (level 1,
address 0) declared before the inner one (level 2, address 1), looked up at
level 2. -/
def exC5state : PState :=
  { initState [] with
    currentLevel := 2,
    currentVariableAddress := 1,
    vars := [⟨"a", "main", 0, "integer", 1, 0⟩, ⟨"a", "f", 0, "integer", 2, 1⟩] }

/-- Token sequence of
`begin integer function f(p); begin integer b; read(b) end; f := 1 end`:
a clean procedure with one parameter and one local. -/
def exC7a : List Token :=
  [beginTok, intTok, funTok, idTok ("f"), lparTok, idTok ("p"), rparTok, semiTok,
    beginTok, intTok, idTok ("b"), semiTok, readTok, lparTok, idTok ("b"), rparTok, endTok, semiTok,
    idTok ("f"), asgTok, numTok ("1"), endTok, eofTok]

/-- Token sequence of
`begin integer function main(p); begin integer b; read(b) end; integer c; read(c) end`:
a procedure named like the initial stack entry `main`, followed by a
top-level declaration after its body has finished. -/
def exC7b : List Token :=
  [beginTok, intTok, funTok, idTok ("main"), lparTok, idTok ("p"), rparTok, semiTok,
    beginTok, intTok, idTok ("b"), semiTok, readTok, lparTok, idTok ("b"), rparTok, endTok, semiTok,
    intTok, idTok ("c"), semiTok, readTok, lparTok, idTok ("c"), rparTok, endTok, eofTok]

/-- Token sequence declaring the procedure `f` twice (the second time a
duplicate), each with a full body, then `f := 1`:
`begin integer function f(p); begin integer b; read(b) end;
integer function f(q); begin integer c; read(c) end; f := 1 end`. -/
def exC10dup : List Token :=
  [beginTok, intTok, funTok, idTok ("f"), lparTok, idTok ("p"), rparTok, semiTok,
    beginTok, intTok, idTok ("b"), semiTok, readTok, lparTok, idTok ("b"), rparTok, endTok, semiTok,
    intTok, funTok, idTok ("f"), lparTok, idTok ("q"), rparTok, semiTok,
    beginTok, intTok, idTok ("c"), semiTok, readTok, lparTok, idTok ("c"), rparTok, endTok, semiTok,
    idTok ("f"), asgTok, numTok ("1"), endTok, eofTok]

/-- Token sequence of `begin integer a; integer b; read(a) end`. -/
def exC4 : List Token :=
  [beginTok, intTok, idTok ("a"), semiTok, intTok, idTok ("b"), semiTok,
    readTok, lparTok, idTok ("a"), rparTok, endTok, eofTok]

/-! ## Parser invariants

`Inv3` (error coalescing, claim C3) and `InvA` (address assignment, claim
C4), preserved by every parser step; `Step`/`StepEq`/`ResStep` package the
preservation together with monotonicity of the nesting level (claim C10).
-/

/-- Error-coalescing invariant: recorded error lines are strictly
increasing, and below the current line strictly whenever the suppression
flag is up (at most one diagnostic is ever recorded per source line). -/
def Inv3 (s : PState) : Prop :=
  List.Pairwise (fun a b => a.line < b.line) s.errors ∧
  (s.shouldAddError = true → ∀ e ∈ s.errors, e.line < s.line) ∧
  (∀ e ∈ s.errors, e.line ≤ s.line)

/-- Address invariant: the address counter is one less than the table
length, and the table's addresses are exactly `0, 1, 2, …` in order. -/
def InvA (s : PState) : Prop :=
  s.currentVariableAddress = (s.vars.length : Int) - 1 ∧
  s.vars.map Variable.address = (List.range s.vars.length).map Int.ofNat

/-- One parser step from `s` to `s2`: preserves both invariants and never
decreases the nesting level. -/
def Step (s s2 : PState) : Prop :=
  (Inv3 s → Inv3 s2) ∧ (InvA s → InvA s2) ∧ s.currentLevel ≤ s2.currentLevel

/-- A `Step` that also returns to the same nesting level. -/
def StepEq (s s2 : PState) : Prop :=
  Step s s2 ∧ s2.currentLevel = s.currentLevel

theorem step_refl (s : PState) : Step s s :=
  ⟨id, id, le_refl _⟩

theorem step_trans {s1 s2 s3 : PState} (h1 : Step s1 s2) (h2 : Step s2 s3) : Step s1 s3 :=
  ⟨fun h => h2.1 (h1.1 h), fun h => h2.2.1 (h1.2.1 h), le_trans h1.2.2 h2.2.2⟩

theorem stepEq_refl (s : PState) : StepEq s s :=
  ⟨step_refl s, rfl⟩

theorem stepEq_trans {s1 s2 s3 : PState} (h1 : StepEq s1 s2) (h2 : StepEq s2 s3) : StepEq s1 s3 :=
  ⟨step_trans h1.1 h2.1, h2.2.trans h1.2⟩

theorem inv3_congr {s s2 : PState} (h1 : s2.errors = s.errors) (h2 : s2.line = s.line)
    (h3 : s2.shouldAddError = s.shouldAddError) : Inv3 s → Inv3 s2 := by
  intro h
  unfold Inv3 at *
  rw [h1, h2, h3]
  exact h

theorem invA_congr {s s2 : PState} (h1 : s2.vars = s.vars)
    (h2 : s2.currentVariableAddress = s.currentVariableAddress) : InvA s → InvA s2 := by
  intro h
  unfold InvA at *
  rw [h1, h2]
  exact h

theorem stepEq_of_fields {s s2 : PState} (h1 : s2.errors = s.errors) (h2 : s2.line = s.line)
    (h3 : s2.shouldAddError = s.shouldAddError) (h4 : s2.vars = s.vars)
    (h5 : s2.currentVariableAddress = s.currentVariableAddress)
    (h6 : s2.currentLevel = s.currentLevel) : StepEq s s2 :=
  ⟨⟨inv3_congr h1 h2 h3, invA_congr h4 h5, le_of_eq h6.symm⟩, h6⟩

theorem stepEq_addError (m : String) (s : PState) : StepEq s (addError m s) := by
  unfold addError
  split
  case isTrue hflag =>
    refine ⟨⟨?_, invA_congr rfl rfl, le_refl _⟩, rfl⟩
    rintro ⟨hp, hlt, hle⟩
    refine ⟨?_, ?_, ?_⟩
    · simp only [List.pairwise_append, List.pairwise_cons, List.Pairwise.nil]
      exact ⟨hp, by simp, fun a ha b hb => by
        simp only [List.mem_singleton] at hb
        subst hb
        exact hlt hflag a ha⟩
    · intro hc
      simp at hc
    · intro e he
      simp only [List.mem_append, List.mem_singleton] at he
      rcases he with he | he
      · exact hle e he
      · subst he; exact le_refl _
  case isFalse => exact stepEq_refl s

theorem stepEq_goToNextLine (s : PState) : StepEq s (goToNextLine s) := by
  rcases he : s.tokens.takeWhile (fun t => t.type = TokenType.END_OF_LINE) with _ | ⟨x, xs⟩
  · refine stepEq_of_fields rfl ?_ ?_ rfl rfl rfl
    · show s.line + (s.tokens.takeWhile (fun t => t.type = TokenType.END_OF_LINE)).length = s.line
      rw [he]
      simp
    · show (s.shouldAddError ||
        !(s.tokens.takeWhile (fun t => t.type = TokenType.END_OF_LINE)).isEmpty) = s.shouldAddError
      rw [he]
      simp
  · refine ⟨⟨?_, invA_congr rfl rfl, le_refl _⟩, rfl⟩
    rintro ⟨hp, _, hle⟩
    refine ⟨hp, ?_, ?_⟩
    · intro _ e hee
      have h1 := hle e hee
      show e.line < s.line + (s.tokens.takeWhile (fun t => t.type = TokenType.END_OF_LINE)).length
      rw [he]
      simp only [List.length_cons]
      omega
    · intro e hee
      have h1 := hle e hee
      show e.line ≤ s.line + (s.tokens.takeWhile (fun t => t.type = TokenType.END_OF_LINE)).length
      rw [he]
      simp only [List.length_cons]
      omega

theorem goToNextLine_fields (s : PState) :
    (goToNextLine s).errors = s.errors ∧ (goToNextLine s).vars = s.vars ∧
    (goToNextLine s).procedures = s.procedures ∧
    (goToNextLine s).currentLevel = s.currentLevel ∧
    (goToNextLine s).currentVariableAddress = s.currentVariableAddress ∧
    (goToNextLine s).procedureStack = s.procedureStack :=
  ⟨rfl, rfl, rfl, rfl, rfl, rfl⟩

theorem stepEq_consumeToken (s : PState) : StepEq s (consumeToken s).2 := by
  unfold consumeToken
  split
  · exact stepEq_goToNextLine s
  · show StepEq s (goToNextLine _)
    refine stepEq_trans (stepEq_goToNextLine s) (stepEq_trans ?_ (stepEq_goToNextLine _))
    exact stepEq_of_fields rfl rfl rfl rfl rfl rfl

theorem addError_fields (m : String) (s : PState) :
    (addError m s).vars = s.vars ∧ (addError m s).procedures = s.procedures ∧
    (addError m s).currentLevel = s.currentLevel ∧ (addError m s).tokens = s.tokens ∧
    (addError m s).line = s.line ∧
    (addError m s).currentVariableAddress = s.currentVariableAddress ∧
    (addError m s).procedureStack = s.procedureStack := by
  unfold addError
  split <;> exact ⟨rfl, rfl, rfl, rfl, rfl, rfl, rfl⟩

theorem consumeToken_fields (s : PState) :
    ((consumeToken s).2).errors = s.errors ∧ ((consumeToken s).2).vars = s.vars ∧
    ((consumeToken s).2).procedures = s.procedures ∧
    ((consumeToken s).2).currentLevel = s.currentLevel ∧
    ((consumeToken s).2).currentVariableAddress = s.currentVariableAddress ∧
    ((consumeToken s).2).procedureStack = s.procedureStack := by
  unfold consumeToken
  split
  · exact goToNextLine_fields _
  · exact goToNextLine_fields _



/-- The state carried by a `matchTok` outcome. -/
def MRes.state : MRes → PState
  | .ok _ s => s
  | .fatal _ s => s

theorem MRes.toRes_state (m : MRes) : m.toRes.state = m.state := by
  cases m <;> rfl

theorem stepEq_matchTok (exp : TokenType) (msg : Option String) (s : PState) :
    StepEq s (matchTok exp msg s).state := by
  unfold matchTok
  rcases s.tokens with _ | ⟨t, ts⟩
  · exact stepEq_refl s
  · show StepEq s (consumeToken _).2
    split
    · exact stepEq_consumeToken s
    · exact stepEq_trans (stepEq_addError _ s) (stepEq_consumeToken _)

/-- A parsing outcome reached from `s`: a valid step in every case, and a
level-preserving one on a normal return. -/
def ResStep (s : PState) (r : Res) : Prop :=
  Step s r.state ∧ ∀ s2, r = .ok s2 → s2.currentLevel = s.currentLevel

theorem resStep_of_stepEq {s : PState} {r : Res} (h : StepEq s r.state) : ResStep s r := by
  refine ⟨h.1, ?_⟩
  intro s2 he
  subst he
  exact h.2

theorem resStep_gas (s : PState) : ResStep s (.gas s) :=
  resStep_of_stepEq (stepEq_refl s)

theorem resStep_andThen {s : PState} {r : Res} {k : PState → Res}
    (h1 : ResStep s r) (h2 : ∀ s1, r = .ok s1 → ResStep s1 (k s1)) :
    ResStep s (r.andThen k) := by
  cases r with
  | ok s1 =>
    have hk := h2 s1 rfl
    have hlvl : s1.currentLevel = s.currentLevel := h1.2 s1 rfl
    refine ⟨step_trans h1.1 hk.1, ?_⟩
    intro s2 he
    have := hk.2 s2 he
    omega
  | fatal e s1 => exact ⟨h1.1, fun s2 he => by cases he⟩
  | gas s1 => exact ⟨h1.1, fun s2 he => by cases he⟩

theorem resStep_matchTok (exp : TokenType) (msg : Option String) (s : PState) :
    ResStep s (matchTok exp msg s).toRes :=
  resStep_of_stepEq (by rw [MRes.toRes_state]; exact stepEq_matchTok exp msg s)

theorem stepEq_pushVariable (n : String) (s : PState) : StepEq s (pushVariable n s) := by
  refine ⟨⟨inv3_congr rfl rfl rfl, ?_, le_refl _⟩, rfl⟩
  rintro ⟨hc, hm⟩
  constructor
  · show s.currentVariableAddress + 1 = _
    simp only [pushVariable, List.length_append, List.length_singleton]
    push_cast
    omega
  · show List.map Variable.address (pushVariable n s).vars =
      List.map Int.ofNat (List.range (pushVariable n s).vars.length)
    simp only [pushVariable, List.map_append, List.length_append, List.length_singleton,
      List.map_singleton, hm, List.range_succ]
    congr 1
    simp only [List.cons.injEq, and_true]
    simp only [Int.ofNat_eq_coe]
    omega

theorem stepEq_closeRange (s : PState) : StepEq s (closeRange s) := by
  unfold closeRange
  split
  · exact stepEq_refl _
  · exact stepEq_of_fields rfl rfl rfl rfl rfl rfl

theorem stepEq_registerVariable (n : String) (s : PState) :
    StepEq s (registerVariable n s) := by
  unfold registerVariable
  split
  · exact stepEq_addError _ s
  · exact stepEq_trans (stepEq_pushVariable n s) (stepEq_closeRange _)

theorem stepEq_registerParameter (n : String) (s : PState) :
    StepEq s (registerParameter n s) := by
  unfold registerParameter
  split
  · exact stepEq_addError _ s
  · refine ⟨⟨inv3_congr rfl rfl rfl, ?_, le_refl _⟩, rfl⟩
    rintro ⟨hc, hm⟩
    constructor
    · simp only [List.length_append, List.length_singleton]
      push_cast
      omega
    · simp only [List.map_append, List.length_append, List.length_singleton, hm,
        List.map_singleton]
      rw [List.range_succ, List.map_append]
      congr 1
      simp only [List.map_singleton]
      congr 1
      simp only [Int.ofNat_eq_coe]
      omega

theorem stepEq_registerProcedure (n : String) (s : PState) :
    StepEq s (registerProcedure n s) := by
  unfold registerProcedure
  split
  · exact stepEq_addError _ s
  · exact stepEq_of_fields rfl rfl rfl rfl rfl rfl

theorem resStep_consumeThrow (mk : String → String) (s : PState) :
    ResStep s (consumeThrow mk s) := by
  unfold consumeThrow
  split
  case h_1 t s2 heq =>
    have h := stepEq_consumeToken s
    rw [heq] at h
    exact resStep_of_stepEq h
  case h_2 s2 heq =>
    have h := stepEq_consumeToken s
    rw [heq] at h
    exact resStep_of_stepEq h

theorem resStep_consumeAddError (mk : String → String) (s : PState) :
    ResStep s (consumeAddError mk s) := by
  unfold consumeAddError
  split
  case h_1 t s2 heq =>
    have h := stepEq_consumeToken s
    rw [heq] at h
    exact resStep_of_stepEq (stepEq_trans h (stepEq_addError _ _))
  case h_2 s2 heq =>
    have h := stepEq_consumeToken s
    rw [heq] at h
    exact resStep_of_stepEq h

theorem resStep_parseVariable (s : PState) : ResStep s (parseVariable s) := by
  unfold parseVariable
  split
  case h_1 e s2 heq =>
    refine resStep_of_stepEq ?_
    have := stepEq_matchTok .IDENTIFIER none s
    rw [heq] at this
    exact this
  case h_2 s2 heq =>
    refine resStep_of_stepEq ?_
    have := stepEq_matchTok .IDENTIFIER none s
    rw [heq] at this
    exact this
  case h_3 t s2 heq =>
    have h2 : StepEq s s2 := by
      have := stepEq_matchTok .IDENTIFIER none s
      rw [heq] at this
      exact this
    split
    · exact resStep_of_stepEq h2
    · exact resStep_of_stepEq (stepEq_trans h2 (stepEq_addError _ s2))

theorem resStep_parseProcedureName (s : PState) : ResStep s (parseProcedureName s) := by
  unfold parseProcedureName
  split
  case h_1 e s2 heq =>
    refine resStep_of_stepEq ?_
    have := stepEq_matchTok .IDENTIFIER none s
    rw [heq] at this
    exact this
  case h_2 s2 heq =>
    refine resStep_of_stepEq ?_
    have := stepEq_matchTok .IDENTIFIER none s
    rw [heq] at this
    exact this
  case h_3 t s2 heq =>
    have h2 : StepEq s s2 := by
      have := stepEq_matchTok .IDENTIFIER none s
      rw [heq] at this
      exact this
    split
    · exact resStep_of_stepEq h2
    · exact resStep_of_stepEq (stepEq_trans h2 (stepEq_addError _ s2))

theorem resStep_parseVariableDeclaration (s : PState) :
    ResStep s (parseVariableDeclaration s) := by
  unfold parseVariableDeclaration
  split
  case h_1 e s2 heq =>
    refine resStep_of_stepEq ?_
    have := stepEq_matchTok .IDENTIFIER none s
    rw [heq] at this
    exact this
  case h_2 s2 heq =>
    refine resStep_of_stepEq ?_
    have := stepEq_matchTok .IDENTIFIER none s
    rw [heq] at this
    exact this
  case h_3 t s2 heq =>
    have h2 : StepEq s s2 := by
      have := stepEq_matchTok .IDENTIFIER none s
      rw [heq] at this
      exact this
    exact resStep_of_stepEq (stepEq_trans h2 (stepEq_registerVariable _ s2))

theorem resStep_parseProcedureNameDeclaration (s : PState) :
    ResStep s (parseProcedureNameDeclaration s) := by
  unfold parseProcedureNameDeclaration
  split
  case h_1 e s2 heq =>
    refine resStep_of_stepEq ?_
    have := stepEq_matchTok .IDENTIFIER none s
    rw [heq] at this
    exact this
  case h_2 s2 heq =>
    refine resStep_of_stepEq ?_
    have := stepEq_matchTok .IDENTIFIER none s
    rw [heq] at this
    exact this
  case h_3 t s2 heq =>
    have h2 : StepEq s s2 := by
      have := stepEq_matchTok .IDENTIFIER none s
      rw [heq] at this
      exact this
    exact resStep_of_stepEq (stepEq_trans h2 (stepEq_registerProcedure _ s2))

theorem resStep_parseParameterDeclaration (s : PState) :
    ResStep s (parseParameterDeclaration s) := by
  unfold parseParameterDeclaration
  split
  case h_1 e s2 heq =>
    refine resStep_of_stepEq ?_
    have := stepEq_matchTok .IDENTIFIER none s
    rw [heq] at this
    exact this
  case h_2 s2 heq =>
    refine resStep_of_stepEq ?_
    have := stepEq_matchTok .IDENTIFIER none s
    rw [heq] at this
    exact this
  case h_3 t s2 heq =>
    have h2 : StepEq s s2 := by
      have := stepEq_matchTok .IDENTIFIER none s
      rw [heq] at this
      exact this
    exact resStep_of_stepEq (stepEq_trans h2 (stepEq_registerParameter _ s2))

theorem resStep_parseRead (s : PState) : ResStep s (parseRead s) := by
  unfold parseRead
  refine resStep_andThen (resStep_matchTok _ _ _) (fun s1 _ => ?_)
  refine resStep_andThen (resStep_matchTok _ _ _) (fun s2 _ => ?_)
  refine resStep_andThen (resStep_parseVariable _) (fun s3 _ => ?_)
  exact resStep_matchTok _ _ _

theorem resStep_parseWrite (s : PState) : ResStep s (parseWrite s) := by
  unfold parseWrite
  refine resStep_andThen (resStep_matchTok _ _ _) (fun s1 _ => ?_)
  refine resStep_andThen (resStep_matchTok _ _ _) (fun s2 _ => ?_)
  refine resStep_andThen (resStep_parseVariable _) (fun s3 _ => ?_)
  exact resStep_matchTok _ _ _

theorem resStep_parseOperator (s : PState) : ResStep s (parseOperator s) := by
  unfold parseOperator
  split
  · exact resStep_of_stepEq (stepEq_refl s)
  · split_ifs <;>
      first
        | exact resStep_matchTok _ _ _
        | exact resStep_consumeAddError _ _


/-- Every parser step, at any fuel, preserves the coalescing and address
invariants, never decreases the nesting level, and restores the nesting
level on a normal return. Proved by induction on the fuel, one case per
`parseX` method. -/
theorem resStep_run : ∀ (fuel : Nat) (r : Rule) (s : PState), ResStep s (run fuel r s) := by
  intro fuel
  induction fuel with
  | zero => intro r s; exact resStep_gas s
  | succ n ih =>
    intro r s
    cases r with
    | program =>
      simp only [run]
      exact resStep_andThen (ih _ _) (fun s1 _ => resStep_matchTok _ _ _)
    | subprogram =>
      simp only [run]
      refine resStep_andThen (resStep_matchTok _ _ _) (fun s1 _ => ?_)
      refine resStep_andThen (ih _ _) (fun s2 _ => ?_)
      refine resStep_andThen (ih _ _) (fun s3 _ => ?_)
      exact resStep_matchTok _ _ _
    | declarations =>
      simp only [run]
      exact resStep_andThen (ih _ _) (fun s1 _ => ih _ _)
    | declarations_ =>
      simp only [run]
      split
      · exact resStep_of_stepEq (stepEq_refl s)
      · split
        · exact resStep_andThen (ih _ _) (fun s1 _ => ih _ _)
        · exact resStep_of_stepEq (stepEq_refl s)
    | declaration =>
      simp only [run]
      refine resStep_andThen (resStep_matchTok _ _ _) (fun s1 _ => ?_)
      refine resStep_andThen (ih _ _) (fun s2 _ => ?_)
      exact resStep_matchTok _ _ _
    | declaration_ =>
      simp only [run]
      split
      · exact resStep_of_stepEq (stepEq_refl s)
      · split
        · exact resStep_parseVariableDeclaration _
        · split
          · exact ih _ _
          · exact resStep_consumeThrow _ _
    | procedureDeclaration =>
      simp only [run]
      refine resStep_andThen (resStep_matchTok _ _ _) (fun s1 _ => ?_)
      refine resStep_andThen (resStep_parseProcedureNameDeclaration _) (fun s2 _ => ?_)
      refine resStep_andThen (resStep_matchTok _ _ _) (fun s3 _ => ?_)
      refine resStep_andThen (resStep_parseParameterDeclaration _) (fun s4 _ => ?_)
      refine resStep_andThen (resStep_matchTok _ _ _) (fun s5 _ => ?_)
      refine resStep_andThen (resStep_matchTok _ _ _) (fun s6 _ => ?_)
      exact ih _ _
    | procedureBody =>
      simp only [run]
      have hup : Step s { s with currentLevel := s.currentLevel + 1 } :=
        ⟨inv3_congr rfl rfl rfl, invA_congr rfl rfl, Nat.le_succ _⟩
      have hchain : ResStep { s with currentLevel := s.currentLevel + 1 }
          (((matchTok .BEGIN none { s with currentLevel := s.currentLevel + 1 }).toRes).andThen fun s =>
            (run n .declarations s).andThen fun s =>
              (run n .executions s).andThen fun s => (matchTok .END none s).toRes) := by
        refine resStep_andThen (resStep_matchTok _ _ _) (fun s1 _ => ?_)
        refine resStep_andThen (ih _ _) (fun s2 _ => ?_)
        refine resStep_andThen (ih _ _) (fun s3 _ => ?_)
        exact resStep_matchTok _ _ _
      split
      case h_1 s1 heq =>
        rw [heq] at hchain
        have hstep : Step { s with currentLevel := s.currentLevel + 1 } s1 := hchain.1
        have hlvl : s1.currentLevel = s.currentLevel + 1 := hchain.2 s1 rfl
        refine ⟨?_, ?_⟩
        · refine ⟨?_, ?_, ?_⟩
          · intro h
            exact inv3_congr rfl rfl rfl (hstep.1 (inv3_congr rfl rfl rfl h))
          · intro h
            exact invA_congr rfl rfl (hstep.2.1 (invA_congr rfl rfl h))
          · show s.currentLevel ≤ s1.currentLevel - 1
            omega
        · intro s2 he
          cases he
          show s1.currentLevel - 1 = s.currentLevel
          omega
      case h_2 r1 hne =>
        refine ⟨step_trans hup hchain.1, ?_⟩
        intro s2 he
        exact absurd he (hne s2)
    | executions =>
      simp only [run]
      exact resStep_andThen (ih _ _) (fun s1 _ => ih _ _)
    | executions_ =>
      simp only [run]
      split
      · exact resStep_of_stepEq (stepEq_refl s)
      · split
        · refine resStep_andThen (resStep_matchTok _ _ _) (fun s1 _ => ?_)
          exact resStep_andThen (ih _ _) (fun s2 _ => ih _ _)
        · exact resStep_of_stepEq (stepEq_refl s)
    | execution =>
      simp only [run]
      split
      · exact resStep_of_stepEq (stepEq_refl s)
      · split
        · exact resStep_parseRead _
        · split
          · exact resStep_parseWrite _
          · split
            · exact ih _ _
            · split
              · exact ih _ _
              · exact resStep_consumeThrow _ _
    | assignment =>
      simp only [run]
      split
      · exact resStep_of_stepEq (stepEq_refl s)
      · refine resStep_andThen ?_ (fun s1 _ => ?_)
        · split
          · exact resStep_parseVariable _
          · split
            · exact resStep_parseProcedureName _
            · exact resStep_consumeAddError _ _
        · refine resStep_andThen (resStep_matchTok _ _ _) (fun s2 _ => ?_)
          exact ih _ _
    | arithmeticExpression =>
      simp only [run]
      exact resStep_andThen (ih _ _) (fun s1 _ => ih _ _)
    | arithmeticExpression_ =>
      simp only [run]
      split
      · exact resStep_of_stepEq (stepEq_refl s)
      · split
        · refine resStep_andThen (resStep_matchTok _ _ _) (fun s1 _ => ?_)
          exact resStep_andThen (ih _ _) (fun s2 _ => ih _ _)
        · exact resStep_of_stepEq (stepEq_refl s)
    | term =>
      simp only [run]
      exact resStep_andThen (ih _ _) (fun s1 _ => ih _ _)
    | term_ =>
      simp only [run]
      split
      · exact resStep_of_stepEq (stepEq_refl s)
      · split
        · refine resStep_andThen (resStep_matchTok _ _ _) (fun s1 _ => ?_)
          exact resStep_andThen (ih _ _) (fun s2 _ => ih _ _)
        · exact resStep_of_stepEq (stepEq_refl s)
    | factor =>
      simp only [run]
      split
      · exact resStep_of_stepEq (stepEq_refl s)
      · split
        · exact resStep_matchTok _ _ _
        · split
          · split
            · exact resStep_parseVariable _
            · split
              · exact ih _ _
              · exact resStep_consumeThrow _ _
          · exact resStep_consumeThrow _ _
    | procedureCall =>
      simp only [run]
      refine resStep_andThen (resStep_parseProcedureName _) (fun s1 _ => ?_)
      refine resStep_andThen (resStep_matchTok _ _ _) (fun s2 _ => ?_)
      refine resStep_andThen (ih _ _) (fun s3 _ => ?_)
      exact resStep_matchTok _ _ _
    | condition =>
      simp only [run]
      refine resStep_andThen (resStep_matchTok _ _ _) (fun s1 _ => ?_)
      refine resStep_andThen (ih _ _) (fun s2 _ => ?_)
      refine resStep_andThen (resStep_matchTok _ _ _) (fun s3 _ => ?_)
      refine resStep_andThen (ih _ _) (fun s4 _ => ?_)
      refine resStep_andThen (resStep_matchTok _ _ _) (fun s5 _ => ?_)
      exact ih _ _
    | conditionExpression =>
      simp only [run]
      refine resStep_andThen (ih _ _) (fun s1 _ => ?_)
      refine resStep_andThen (resStep_parseOperator _) (fun s2 _ => ?_)
      exact ih _ _


/-! ## Lexer lemmas (claim C8) -/

/-- Number of newline characters in a character sequence. -/
def nlCount (cs : List Char) : Nat :=
  cs.countP (fun c => c == '\n')

theorem nlCount_nil : nlCount [] = 0 := rfl

theorem nlCount_cons (c : Char) (cs : List Char) :
    nlCount (c :: cs) = nlCount cs + (if c = '\n' then 1 else 0) := by
  unfold nlCount
  rw [List.countP_cons]
  simp

theorem nlCount_dropWhile (p : Char → Bool) (hp : ∀ c, p c = true → ¬ c = '\n') :
    ∀ cs : List Char, nlCount (cs.dropWhile p) = nlCount cs := by
  intro cs
  induction cs with
  | nil => rfl
  | cons c cs ih =>
    rw [List.dropWhile_cons]
    split
    case isTrue hc =>
      rw [ih, nlCount_cons]
      simp [hp c hc]
    case isFalse hc => rfl

/-- The `END_OF_LINE` contribution of a lexer-step outcome. -/
def eolnOut : Sum Token Err → Nat
  | Sum.inl t => if t.type = TokenType.END_OF_LINE then 1 else 0
  | Sum.inr _ => 0

theorem dropWhile_length_le {α : Type} (p : α → Bool) :
    ∀ l : List α, (l.dropWhile p).length ≤ l.length := by
  intro l
  induction l with
  | nil => exact le_refl _
  | cons x xs ih =>
    rw [List.dropWhile_cons]
    split
    · exact le_trans ih (Nat.le_succ _)
    · exact le_refl _

theorem getKeywordType_ne_eoln (v : String) (kt : TokenType)
    (h : getKeywordType v = some kt) : ¬ kt = TokenType.END_OF_LINE := by
  unfold getKeywordType at h
  split_ifs at h <;> (injection h with h2; subst h2; decide)

/-- A list with head element `a` is `a` consed onto its tail. -/
theorem head?_some_eq {α : Type} {l : List α} {a : α} (h : l.head? = some a) :
    l = a :: l.tail := by
  cases l with
  | nil => cases h
  | cons x xs =>
    simp only [List.head?] at h
    injection h with h2
    subst h2
    rfl

/-- One lexer step on a non-empty input consumes at least one character,
accounts for exactly the newline characters it consumed (one when it emits
an `END_OF_LINE`, none otherwise), and labels every `END_OF_LINE` token it
emits with `"EOLN"`. -/
theorem lexStep_analysis (line : Nat) (cs : List Char) (h : ¬ cs = []) :
    (lexStep line cs).rest.length < cs.length ∧
    nlCount cs = nlCount (lexStep line cs).rest + eolnOut (lexStep line cs).out ∧
    (∀ t, (lexStep line cs).out = Sum.inl t → t.type = TokenType.END_OF_LINE →
      t.value = "EOLN") := by
  have hdl : (cs.dropWhile (fun c => c = ' ')).length ≤ cs.length :=
    dropWhile_length_le _ cs
  have hdc : nlCount (cs.dropWhile (fun c => c = ' ')) = nlCount cs :=
    nlCount_dropWhile _ (by intro c hc hn; subst hn; simp at hc) cs
  have hpos : 0 < cs.length := by
    cases cs
    · exact absurd rfl h
    · simp
  generalize hstep : lexStep line cs = st
  unfold lexStep at hstep
  rcases hd : cs.dropWhile (fun c => c = ' ') with _ | ⟨c, rest⟩ <;> rw [hd] at hstep hdl hdc
  · subst hstep
    refine ⟨by simpa using hpos, ?_, by intro t ht; cases ht⟩
    rw [← hdc]
    rfl
  · simp only [List.length_cons] at hdl
    have hcrest : nlCount cs = nlCount rest + (if c = '\n' then 1 else 0) := by
      rw [← hdc, nlCount_cons]
    dsimp only at hstep
    by_cases h1 : isLetter c = true
    · rw [if_pos h1] at hstep
      have hc : ¬ c = '\n' := by
        intro hn
        subst hn
        simp [isLetter] at h1
      have hrest2 : nlCount (rest.dropWhile isAlnum) = nlCount rest :=
        nlCount_dropWhile _ (by
          intro a ha hn
          subst hn
          simp [isAlnum, isLetter, isDigit] at ha) rest
      have hlen2 : (rest.dropWhile isAlnum).length ≤ rest.length :=
        dropWhile_length_le _ rest
      rcases hk : getKeywordType (String.mk (c :: List.takeWhile isAlnum rest)) with _ | kt <;>
        rw [hk] at hstep
      · by_cases hlen : (String.mk (c :: List.takeWhile isAlnum rest)).length ≤
            MAX_IDENTIFIER_LENGTH
        · rw [if_pos hlen] at hstep
          subst hstep
          refine ⟨by show (rest.dropWhile isAlnum).length < cs.length; omega, ?_, ?_⟩
          · show nlCount cs = nlCount (rest.dropWhile isAlnum) + eolnOut (Sum.inl _)
            rw [hcrest, if_neg hc, hrest2]
            simp [eolnOut]
          · intro t ht hty
            cases ht
            simp at hty
        · rw [if_neg hlen] at hstep
          subst hstep
          refine ⟨by show (rest.dropWhile isAlnum).length < cs.length; omega, ?_,
            by intro t ht; cases ht⟩
          show nlCount cs = nlCount (rest.dropWhile isAlnum) + eolnOut (Sum.inr _)
          rw [hcrest, if_neg hc, hrest2]
          simp [eolnOut]
      · subst hstep
        refine ⟨by show (rest.dropWhile isAlnum).length < cs.length; omega, ?_, ?_⟩
        · show nlCount cs = nlCount (rest.dropWhile isAlnum) + eolnOut (Sum.inl _)
          rw [hcrest, if_neg hc, hrest2]
          simp [eolnOut, if_neg (getKeywordType_ne_eoln _ _ hk)]
        · intro t ht hty
          cases ht
          exact absurd hty (getKeywordType_ne_eoln _ _ hk)
    · rw [if_neg h1] at hstep
      by_cases h2 : isDigit c = true
      · rw [if_pos h2] at hstep
        have hc : ¬ c = '\n' := by
          intro hn
          subst hn
          simp [isDigit] at h2
        have hrest2 : nlCount (rest.dropWhile isDigit) = nlCount rest :=
          nlCount_dropWhile _ (by
            intro a ha hn
            subst hn
            simp [isDigit] at ha) rest
        have hlen2 : (rest.dropWhile isDigit).length ≤ rest.length :=
          dropWhile_length_le _ rest
        subst hstep
        refine ⟨by show (rest.dropWhile isDigit).length < cs.length; omega, ?_, ?_⟩
        · show nlCount cs = nlCount (rest.dropWhile isDigit) + eolnOut (Sum.inl _)
          rw [hcrest, if_neg hc, hrest2]
          simp [eolnOut]
        · intro t ht hty
          cases ht
          simp at hty
      · rw [if_neg h2] at hstep
        by_cases h3 : c = '='
        · rw [if_pos h3] at hstep
          subst hstep
          refine ⟨by show rest.length < cs.length; omega, ?_,
            by intro t ht hty; cases ht; simp at hty⟩
          show nlCount cs = nlCount rest + eolnOut (Sum.inl _)
          rw [hcrest, if_neg (by simp [h3])]
          simp [eolnOut]
        · rw [if_neg h3] at hstep
          by_cases h4 : c = '-'
          · rw [if_pos h4] at hstep
            subst hstep
            refine ⟨by show rest.length < cs.length; omega, ?_,
              by intro t ht hty; cases ht; simp at hty⟩
            show nlCount cs = nlCount rest + eolnOut (Sum.inl _)
            rw [hcrest, if_neg (by simp [h4])]
            simp [eolnOut]
          · rw [if_neg h4] at hstep
            by_cases h5 : c = '*'
            · rw [if_pos h5] at hstep
              subst hstep
              refine ⟨by show rest.length < cs.length; omega, ?_,
                by intro t ht hty; cases ht; simp at hty⟩
              show nlCount cs = nlCount rest + eolnOut (Sum.inl _)
              rw [hcrest, if_neg (by simp [h5])]
              simp [eolnOut]
            · rw [if_neg h5] at hstep
              by_cases h6 : c = '('
              · rw [if_pos h6] at hstep
                subst hstep
                refine ⟨by show rest.length < cs.length; omega, ?_,
                  by intro t ht hty; cases ht; simp at hty⟩
                show nlCount cs = nlCount rest + eolnOut (Sum.inl _)
                rw [hcrest, if_neg (by simp [h6])]
                simp [eolnOut]
              · rw [if_neg h6] at hstep
                by_cases h7 : c = ')'
                · rw [if_pos h7] at hstep
                  subst hstep
                  refine ⟨by show rest.length < cs.length; omega, ?_,
                    by intro t ht hty; cases ht; simp at hty⟩
                  show nlCount cs = nlCount rest + eolnOut (Sum.inl _)
                  rw [hcrest, if_neg (by simp [h7])]
                  simp [eolnOut]
                · rw [if_neg h7] at hstep
                  by_cases h8 : c = '<'
                  · rw [if_pos h8] at hstep
                    have hc : ¬ c = '\n' := by simp [h8]
                    by_cases hq1 : rest.head? = some '='
                    · rw [if_pos hq1] at hstep
                      subst hstep
                      have hre : rest = '=' :: rest.tail := head?_some_eq hq1
                      refine ⟨?_, ?_, by intro t ht hty; cases ht; simp at hty⟩
                      · show rest.tail.length < cs.length
                        rw [hre] at hdl
                        simp only [List.length_cons] at hdl
                        omega
                      · show nlCount cs = nlCount rest.tail + eolnOut (Sum.inl _)
                        rw [hcrest, if_neg hc]
                        conv_lhs => rw [hre]
                        rw [nlCount_cons, if_neg (by simp)]
                        simp [eolnOut]
                    · rw [if_neg hq1] at hstep
                      by_cases hq2 : rest.head? = some '>'
                      · rw [if_pos hq2] at hstep
                        subst hstep
                        have hre : rest = '>' :: rest.tail := head?_some_eq hq2
                        refine ⟨?_, ?_, by intro t ht hty; cases ht; simp at hty⟩
                        · show rest.tail.length < cs.length
                          rw [hre] at hdl
                          simp only [List.length_cons] at hdl
                          omega
                        · show nlCount cs = nlCount rest.tail + eolnOut (Sum.inl _)
                          rw [hcrest, if_neg hc]
                          conv_lhs => rw [hre]
                          rw [nlCount_cons, if_neg (by simp)]
                          simp [eolnOut]
                      · rw [if_neg hq2] at hstep
                        subst hstep
                        refine ⟨by show rest.length < cs.length; omega, ?_,
                          by intro t ht hty; cases ht; simp at hty⟩
                        show nlCount cs = nlCount rest + eolnOut (Sum.inl _)
                        rw [hcrest, if_neg hc]
                        simp [eolnOut]
                  · rw [if_neg h8] at hstep
                    by_cases h9 : c = '>'
                    · rw [if_pos h9] at hstep
                      have hc : ¬ c = '\n' := by simp [h9]
                      by_cases hq1 : rest.head? = some '='
                      · rw [if_pos hq1] at hstep
                        subst hstep
                        have hre : rest = '=' :: rest.tail := head?_some_eq hq1
                        refine ⟨?_, ?_, by intro t ht hty; cases ht; simp at hty⟩
                        · show rest.tail.length < cs.length
                          rw [hre] at hdl
                          simp only [List.length_cons] at hdl
                          omega
                        · show nlCount cs = nlCount rest.tail + eolnOut (Sum.inl _)
                          rw [hcrest, if_neg hc]
                          conv_lhs => rw [hre]
                          rw [nlCount_cons, if_neg (by simp)]
                          simp [eolnOut]
                      · rw [if_neg hq1] at hstep
                        subst hstep
                        refine ⟨by show rest.length < cs.length; omega, ?_,
                          by intro t ht hty; cases ht; simp at hty⟩
                        show nlCount cs = nlCount rest + eolnOut (Sum.inl _)
                        rw [hcrest, if_neg hc]
                        simp [eolnOut]
                    · rw [if_neg h9] at hstep
                      by_cases h10 : c = ':'
                      · rw [if_pos h10] at hstep
                        have hc : ¬ c = '\n' := by simp [h10]
                        by_cases hq1 : rest.head? = some '='
                        · rw [if_pos hq1] at hstep
                          subst hstep
                          have hre : rest = '=' :: rest.tail := head?_some_eq hq1
                          refine ⟨?_, ?_, by intro t ht hty; cases ht; simp at hty⟩
                          · show rest.tail.length < cs.length
                            rw [hre] at hdl
                            simp only [List.length_cons] at hdl
                            omega
                          · show nlCount cs = nlCount rest.tail + eolnOut (Sum.inl _)
                            rw [hcrest, if_neg hc]
                            conv_lhs => rw [hre]
                            rw [nlCount_cons, if_neg (by simp)]
                            simp [eolnOut]
                        · rw [if_neg hq1] at hstep
                          subst hstep
                          refine ⟨by show rest.length < cs.length; omega, ?_,
                            by intro t ht; cases ht⟩
                          show nlCount cs = nlCount rest + eolnOut (Sum.inr _)
                          rw [hcrest, if_neg hc]
                          simp [eolnOut]
                      · rw [if_neg h10] at hstep
                        by_cases h11 : c = ';'
                        · rw [if_pos h11] at hstep
                          subst hstep
                          refine ⟨by show rest.length < cs.length; omega, ?_,
                            by intro t ht hty; cases ht; simp at hty⟩
                          show nlCount cs = nlCount rest + eolnOut (Sum.inl _)
                          rw [hcrest, if_neg (by simp [h11])]
                          simp [eolnOut]
                        · rw [if_neg h11] at hstep
                          by_cases h12 : c = '\n'
                          · rw [if_pos h12] at hstep
                            subst hstep
                            refine ⟨by show rest.length < cs.length; omega, ?_,
                              by intro t ht hty; cases ht; rfl⟩
                            show nlCount cs = nlCount rest + eolnOut (Sum.inl _)
                            rw [hcrest, if_pos h12]
                            simp [eolnOut]
                          · rw [if_neg h12] at hstep
                            subst hstep
                            refine ⟨by show rest.length < cs.length; omega, ?_,
                              by intro t ht; cases ht⟩
                            show nlCount cs = nlCount rest + eolnOut (Sum.inr _)
                            rw [hcrest, if_neg h12]
                            simp [eolnOut]


/-- The lexer loop, on fuel at least the input length, emits exactly one
`END_OF_LINE` token per newline character, each labelled `"EOLN"`. -/
theorem lexLoop_eoln : ∀ (fuel line : Nat) (cs : List Char), cs.length ≤ fuel →
    countEoln (lexLoop fuel line cs).1 = nlCount cs ∧
    (∀ t, t ∈ (lexLoop fuel line cs).1 → t.type = TokenType.END_OF_LINE →
      t.value = "EOLN") := by
  intro fuel
  induction fuel with
  | zero =>
    intro line cs hlen
    have hnil : cs = [] := by
      cases cs
      · rfl
      · simp at hlen
    subst hnil
    exact ⟨rfl, by intro t ht; exact absurd ht (List.not_mem_nil t)⟩
  | succ n ih =>
    intro line cs hlen
    rcases hcs : cs with _ | ⟨c, cs2⟩
    · exact ⟨rfl, by intro t ht; exact absurd ht (List.not_mem_nil t)⟩
    · subst hcs
      have hne : ¬ (c :: cs2) = [] := by simp
      obtain ⟨hl, hc, hv⟩ := lexStep_analysis line (c :: cs2) hne
      have hrec := ih (lexStep line (c :: cs2)).line (lexStep line (c :: cs2)).rest (by
        simp only [List.length_cons] at hl hlen
        omega)
      simp only [lexLoop]
      rcases ho : (lexStep line (c :: cs2)).out with t | e <;> rw [ho] at hc <;> simp only
      · constructor
        · show countEoln (t :: (lexLoop n _ _).1) = _
          unfold countEoln at hrec ⊢
          rw [List.countP_cons]
          simp only [eolnOut] at hc
          rw [hrec.1, hc]
          by_cases hty : t.type = TokenType.END_OF_LINE
          · rw [if_pos hty, if_pos (by simp [hty])]
          · rw [if_neg hty, if_neg (by simp [hty])]
        · intro t2 ht2 hty2
          rcases List.mem_cons.mp ht2 with he | he
          · subst he
            exact hv t2 ho hty2
          · exact hrec.2 t2 he hty2
      · refine ⟨?_, fun t2 ht2 hty2 => hrec.2 t2 ht2 hty2⟩
        show countEoln (lexLoop n _ _).1 = _
        rw [hrec.1, hc]
        simp [eolnOut]


/-! ## Claim theorems -/

theorem addError_flag_false {s : PState} (h : s.shouldAddError = false) (m : String) :
    addError m s = s := by
  unfold addError
  rw [if_neg (by simp [h])]

theorem addError_flag_true {s : PState} (h : s.shouldAddError = true) (m : String) :
    addError m s =
      { s with shouldAddError := false, errors := s.errors ++ [⟨s.line, m⟩] } := by
  unfold addError
  rw [if_pos h]

theorem inv3_initState (ts : List Token) : Inv3 (initState ts) :=
  ⟨List.Pairwise.nil, fun _ e he => absurd he (List.not_mem_nil e),
    fun e he => absurd he (List.not_mem_nil e)⟩

theorem invA_initState (ts : List Token) : InvA (initState ts) :=
  ⟨by norm_num [initState], rfl⟩

theorem pairwise_lt_range_map (k : Nat) :
    List.Pairwise (fun a b => a < b) ((List.range k).map Int.ofNat) := by
  refine List.Pairwise.map _ ?_ (List.pairwise_lt_range k)
  intro a b hab
  exact Int.ofNat_lt.mpr hab

/-- Claim C3 (confirmed): at most one soft error is recorded per source
line. (1) With the suppression flag down, `addError` drops the diagnostic;
(2) the first soft error on a line is recorded and lowers the flag; (3)
consuming a line-boundary token raises the flag again; (4) consequently,
throughout any parse the recorded error lines are strictly increasing — so
no two soft diagnostics ever share a line. -/
theorem C3_error_coalescing :
    (∀ (m : String) (s : PState), s.shouldAddError = false → addError m s = s) ∧
    (∀ (m : String) (s : PState), s.shouldAddError = true →
      addError m s =
        { s with shouldAddError := false, errors := s.errors ++ [⟨s.line, m⟩] }) ∧
    (∀ (s : PState) (t : Token) (ts : List Token), s.tokens = t :: ts →
      t.type = TokenType.END_OF_LINE → (goToNextLine s).shouldAddError = true) ∧
    (∀ (fuel : Nat) (r : Rule) (ts : List Token),
      List.Pairwise (fun a b => a.line < b.line)
        ((run fuel r (initState ts)).state.errors)) := by
  refine ⟨fun m s h => addError_flag_false h m, fun m s h => addError_flag_true h m, ?_, ?_⟩
  · intro s t ts htk hty
    show (s.shouldAddError ||
      !(s.tokens.takeWhile (fun t => t.type = TokenType.END_OF_LINE)).isEmpty) = true
    rw [htk]
    simp [hty]
  · intro fuel r ts
    exact ((resStep_run fuel r (initState ts)).1.1 (inv3_initState ts)).1

/-- Witness for C3: concrete instantiations of the three hypothesis-bearing
conjuncts. -/
theorem C3_error_coalescing_witness :
    addError ("m") { initState [] with shouldAddError := false } =
      { initState [] with shouldAddError := false } ∧
    addError ("m") (initState []) =
      { initState [] with shouldAddError := false, errors := [⟨1, "m"⟩] } ∧
    (goToNextLine (initState [⟨TokenType.END_OF_LINE, "EOLN"⟩])).shouldAddError = true := by
  refine ⟨C3_error_coalescing.1 ("m") _ rfl, ?_, ?_⟩
  · have h := C3_error_coalescing.2.1 ("m") (initState []) rfl
    rw [h]
    rfl
  · exact C3_error_coalescing.2.2.1 _ ⟨TokenType.END_OF_LINE, "EOLN"⟩ [] rfl rfl

/-- Claim C4 (confirmed): in every parse outcome the variable-table
addresses are exactly `0, 1, 2, …` in registration order — globally
strictly increasing from 0 across the whole program regardless of procedure
nesting, and no two entries share an address. -/
theorem C4_addresses_strictly_increasing (fuel : Nat) (ts : List Token) (b : Bool)
    (s : PState) (h : parse fuel ts = some (b, s)) :
    s.vars.map Variable.address = (List.range s.vars.length).map Int.ofNat ∧
    List.Pairwise (fun a b => a < b) (s.vars.map Variable.address) := by
  have hA : InvA (run fuel .program (initState ts)).state :=
    (resStep_run fuel .program (initState ts)).1.2.1 (invA_initState ts)
  unfold parse at h
  rcases hres : run fuel .program (initState ts) with s1 | ⟨e1, s1⟩ | s1 <;>
    rw [hres] at h hA
  · simp only [Option.some.injEq, Prod.mk.injEq] at h
    obtain ⟨hb, hs⟩ := h
    subst hs
    simp only [Res.state] at hA
    exact ⟨hA.2, by rw [hA.2]; exact pairwise_lt_range_map _⟩
  · simp only [Option.some.injEq, Prod.mk.injEq] at h
    obtain ⟨hb, hs⟩ := h
    subst hs
    simp only [Res.state] at hA
    exact ⟨hA.2, by rw [show ({ s1 with errors := s1.errors ++ [⟨e1.line, e1.msg ++ " [FATAL]"⟩] } : PState).vars = s1.vars from rfl, hA.2]; exact pairwise_lt_range_map _⟩
  · cases h

/-- Witness for C4 at `begin integer a; integer b; read(a) end`: the table
gets addresses `[0, 1]`. -/
theorem C4_addresses_witness :
    ((parse 1000 exC4).getD (true, initState [])).2.vars.map Variable.address =
      (List.range ((parse 1000 exC4).getD (true, initState [])).2.vars.length).map
        Int.ofNat ∧
    List.Pairwise (fun a b => a < b)
      (((parse 1000 exC4).getD (true, initState [])).2.vars.map Variable.address) :=
  C4_addresses_strictly_increasing 1000 exC4
    ((parse 1000 exC4).getD (true, initState [])).1
    ((parse 1000 exC4).getD (true, initState [])).2 (by decide)

/-- Claim C2 (confirmed): when an execution statement is expected and the
current token is none of `read`/`write`/identifier/`if`, the parser raises
a fatal error that aborts the parse, leaving the tables and the soft errors
collected so far untouched; the driver marks the run failed and appends the
fatal message tagged `[FATAL]` to the otherwise-preserved artifacts. -/
theorem C2_fatal_execution_abort :
    (∀ (fuel : Nat) (s : PState) (t : Token) (ts : List Token), s.tokens = t :: ts →
      ¬ t.type = TokenType.READ → ¬ t.type = TokenType.WRITE →
      ¬ t.type = TokenType.IDENTIFIER → ¬ t.type = TokenType.IF →
      ∃ e s2, run (fuel + 1) Rule.execution s = Res.fatal e s2 ∧
        s2.vars = s.vars ∧ s2.procedures = s.procedures ∧ s2.errors = s.errors) ∧
    (∀ (fuel : Nat) (ts : List Token) (e : Err) (s : PState),
      run fuel Rule.program (initState ts) = Res.fatal e s →
      parse fuel ts = some (false,
        { s with errors := s.errors ++ [⟨e.line, e.msg ++ " [FATAL]"⟩] })) := by
  constructor
  · intro fuel s t ts htk h1 h2 h3 h4
    simp only [run]
    rw [htk]
    dsimp only
    rw [if_neg h1, if_neg h2, if_neg h3, if_neg h4]
    unfold consumeThrow
    have hcf := consumeToken_fields s
    rcases hct : consumeToken s with ⟨ot, s2x⟩
    rw [hct] at hcf
    dsimp only at hcf
    rcases ot with _ | t2 <;> dsimp only
    · exact ⟨_, s2x, rfl, hcf.2.1, hcf.2.2.1, hcf.1⟩
    · exact ⟨_, s2x, rfl, hcf.2.1, hcf.2.2.1, hcf.1⟩
  · intro fuel ts e s h
    unfold parse
    rw [h]


/-- Witness for C2: `end` in execution position aborts with the tables and
errors preserved, and a fatal run of the full parser is marked failed with
the `[FATAL]`-tagged message appended. -/
theorem C2_fatal_execution_abort_witness :
    (∃ e s2, run 1 Rule.execution (initState [endTok, eofTok]) = Res.fatal e s2 ∧
      s2.vars = (initState [endTok, eofTok]).vars ∧
      s2.procedures = (initState [endTok, eofTok]).procedures ∧
      s2.errors = (initState [endTok, eofTok]).errors) ∧
    parse 50 exC1factor = some (false,
      { (run 50 Rule.program (initState exC1factor)).state with
        errors := (run 50 Rule.program (initState exC1factor)).state.errors ++
          [⟨1, "Undefined variable or procedure 'x'" ++ " [FATAL]"⟩] }) :=
  ⟨C2_fatal_execution_abort.1 0 (initState [endTok, eofTok]) endTok [eofTok] rfl
      (by decide) (by decide) (by decide) (by decide),
    C2_fatal_execution_abort.2 50 exC1factor ⟨1, "Undefined variable or procedure 'x'"⟩
      (run 50 Rule.program (initState exC1factor)).state (by decide)⟩

/-- Claim C8 (amended): the lexer emits exactly one `END_OF_LINE` sentinel,
labelled `"EOLN"`, per newline character of the (trimmed) source text — not
per non-empty source line: the final line, having no trailing newline after
trimming, contributes none, while an empty interior line contributes one. -/
theorem C8_eoln_per_newline (fuel : Nat) (cs : List Char) (h : cs.length ≤ fuel) :
    countEoln (tokenize fuel cs).1 = nlCount cs ∧
    (∀ t, t ∈ (tokenize fuel cs).1 → t.type = TokenType.END_OF_LINE →
      t.value = "EOLN") := by
  obtain ⟨h1, h2⟩ := lexLoop_eoln fuel 1 cs h
  constructor
  · show countEoln ((lexLoop fuel 1 cs).1 ++ [⟨.END_OF_FILE, "EOF"⟩]) = nlCount cs
    unfold countEoln at h1 ⊢
    rw [List.countP_append, h1]
    simp
  · intro t ht hty
    rcases List.mem_append.mp ht with hm | hm
    · exact h2 t hm hty
    · simp only [List.mem_singleton] at hm
      subst hm
      exact absurd hty (by decide)

/-- Witness for C8 on the two-line source `a\nb`. -/
theorem C8_eoln_per_newline_witness :
    countEoln (tokenize 3 ['a', '\n', 'b']).1 = nlCount ['a', '\n', 'b'] :=
  (C8_eoln_per_newline 3 ['a', '\n', 'b'] (by decide)).1

/-- Counterexample to C8 as stated: the source `a\nb` has two non-empty
lines but its token sequence holds exactly one `END_OF_LINE` token. -/
theorem C8_counterexample :
    countEoln (tokenize 10 ['a', '\n', 'b']).1 = 1 ∧
    nonemptyLineCount ['a', '\n', 'b'] = 2 := by
  refine ⟨by decide, by decide⟩

/-- Claim C9 (amended): after a `:` the lexer emits `ASSIGN` exactly when
the next character is `=` (consuming it); on any other next character — or
at end of input — it raises the "Misused colon" error having consumed only
the colon, so scanning resumes at the very character that followed the
colon, which is re-scanned as the start of the next token (for the input
`:a`, the `a` still becomes an identifier token). -/
theorem C9_misused_colon :
    (∀ (line : Nat) (rest : List Char),
      lexStep line (':' :: '=' :: rest) = ⟨Sum.inl ⟨.ASSIGN, ":="⟩, line, rest⟩) ∧
    (∀ (line : Nat) (c : Char) (rest : List Char), ¬ c = '=' →
      lexStep line (':' :: c :: rest) =
        ⟨Sum.inr ⟨line, "Misused colon"⟩, line, c :: rest⟩) ∧
    (∀ line : Nat, lexStep line [':'] = ⟨Sum.inr ⟨line, "Misused colon"⟩, line, []⟩) ∧
    tokenize 10 [':', 'a'] =
      ([⟨.IDENTIFIER, "a"⟩, ⟨.END_OF_FILE, "EOF"⟩], [⟨1, "Misused colon"⟩]) := by
  refine ⟨fun line rest => rfl, ?_, fun line => rfl, by decide⟩
  intro line c rest hc
  unfold lexStep
  rw [show (':' :: c :: rest).dropWhile (fun c => c = ' ') = ':' :: c :: rest from by simp]
  dsimp only
  rw [if_neg (by decide), if_neg (by decide), if_neg (by decide), if_neg (by decide),
    if_neg (by decide), if_neg (by decide), if_neg (by decide), if_neg (by decide),
    if_neg (by decide), if_pos rfl, if_neg (by simp [hc])]

/-- Witness for C9: the misused-colon case at `:a`. -/
theorem C9_misused_colon_witness :
    lexStep 1 (':' :: 'a' :: []) = ⟨Sum.inr ⟨1, "Misused colon"⟩, 1, ['a']⟩ :=
  C9_misused_colon.2.1 1 'a' [] (by decide)

/-- Counterexample to C9 as stated: for `:a`, the character following the
colon is re-scanned and becomes an identifier token, so scanning does not
resume "after the pair". -/
theorem C9_counterexample :
    (tokenize 10 [':', 'a']).1 = [⟨.IDENTIFIER, "a"⟩, ⟨.END_OF_FILE, "EOF"⟩] ∧
    (tokenize 10 [':', 'a']).2 = [⟨1, "Misused colon"⟩] := by
  refine ⟨by decide, by decide⟩

/-- Token sequence of
`begin integer function f(p); begin integer b; read(b) end; f := 1 end`,
a duplicate-free program with one procedure (used for the C10 witness). -/
def exC10ok : List Token :=
  [beginTok, intTok, funTok, idTok ("f"), lparTok, idTok ("p"), rparTok, semiTok,
    beginTok, intTok, idTok ("b"), semiTok, readTok, lparTok, idTok ("b"), rparTok, endTok, semiTok,
    idTok ("f"), asgTok, numTok ("1"), endTok, eofTok]

/-- Claim C10 (amended): the level counter starts at 1, every normal return
of a parse step restores it, and it never decreases below its starting
value mid-parse (in particular it stays ≥ 1); `registerProcedure` pushes
the name onto the stack exactly when the declaration is not a duplicate,
while a completed procedure body always pops one entry — so the stack ends
back at `["main"]` for parses without duplicate procedure declarations (a
duplicate skips the push but not the pop, and can leave the stack empty). -/
theorem C10_scope_balance :
    (∀ ts : List Token,
      (initState ts).currentLevel = 1 ∧ (initState ts).procedureStack = ["main"]) ∧
    (∀ (fuel : Nat) (r : Rule) (s s2 : PState), run fuel r s = Res.ok s2 →
      s2.currentLevel = s.currentLevel) ∧
    (∀ (fuel : Nat) (r : Rule) (s : PState),
      s.currentLevel ≤ (run fuel r s).state.currentLevel) ∧
    (∀ (nm : String) (s : PState), findDuplicateProcedure nm s = none →
      (registerProcedure nm s).procedureStack = nm :: s.procedureStack) ∧
    (∀ (nm : String) (s : PState) (d : Procedure),
      findDuplicateProcedure nm s = some d →
      (registerProcedure nm s).procedureStack = s.procedureStack) ∧
    ((parse 1000 exC10ok).map (fun p => (p.1, p.2.procedureStack, p.2.currentLevel)) =
      some (true, ["main"], 1)) := by
  refine ⟨fun ts => ⟨rfl, rfl⟩, ?_, ?_, ?_, ?_, by decide⟩
  · intro fuel r s s2 h
    exact (resStep_run fuel r s).2 s2 h
  · intro fuel r s
    exact (resStep_run fuel r s).1.2.2
  · intro nm s h
    unfold registerProcedure
    rw [h]
  · intro nm s d h
    unfold registerProcedure
    rw [h]
    exact (addError_fields _ s).2.2.2.2.2.2

/-- Witness for C10: concrete instantiations of the hypothesis-bearing
conjuncts (a normal return preserving the level, a non-duplicate push, a
duplicate non-push). -/
theorem C10_scope_balance_witness :
    (run 1 Rule.declarations_ (initState [endTok])).state.currentLevel =
      (initState [endTok]).currentLevel ∧
    (registerProcedure ("f") (initState [])).procedureStack = "f" :: ["main"] ∧
    (registerProcedure ("f")
        { initState [] with procedures := [⟨"f", "integer", 2, -1, -1⟩] }).procedureStack =
      ["main"] :=
  ⟨C10_scope_balance.2.1 1 Rule.declarations_ (initState [endTok])
      ((run 1 Rule.declarations_ (initState [endTok])).state) (by decide),
    C10_scope_balance.2.2.2.1 ("f") (initState []) (by decide),
    C10_scope_balance.2.2.2.2.1 ("f")
      { initState [] with procedures := [⟨"f", "integer", 2, -1, -1⟩] }
      ⟨"f", "integer", 2, -1, -1⟩ (by decide)⟩

/-- Counterexample to C10 as stated: a program whose second procedure
declaration is a duplicate ends a non-fatal parse with an empty procedure
stack instead of the initial `["main"]` (the duplicate skipped the push,
the completed body still popped). -/
theorem C10_counterexample :
    isOk (run 1000 Rule.program (initState exC10dup)) = true ∧
    (run 1000 Rule.program (initState exC10dup)).state.procedureStack = [] ∧
    (initState exC10dup).procedureStack = ["main"] ∧
    (run 1000 Rule.program (initState exC10dup)).state.currentLevel = 1 := by
  refine ⟨by decide, by decide, by decide, by decide⟩


theorem goToNextLine_head_not_eoln {s : PState} {t : Token} {ts : List Token}
    (htk : s.tokens = t :: ts) (hty : ¬ t.type = TokenType.END_OF_LINE) :
    goToNextLine s = s := by
  rcases s with ⟨line, stk, lvl, cva, flag, corr, vars, procs, errs, toks⟩
  simp only at htk
  subst htk
  unfold goToNextLine
  simp [hty]

theorem consumeToken_cons_not_eoln {s : PState} {t : Token} {ts : List Token}
    (htk : s.tokens = t :: ts) (hty : ¬ t.type = TokenType.END_OF_LINE) :
    consumeToken s =
      (some t, goToNextLine { s with tokens := ts, correctTokens := s.correctTokens ++ [t] }) := by
  unfold consumeToken
  rw [goToNextLine_head_not_eoln htk hty, htk]

theorem findVariable_congr {s1 s2 : PState} (nm : String) (h1 : s1.vars = s2.vars)
    (h2 : s1.currentLevel = s2.currentLevel) : findVariable nm s1 = findVariable nm s2 := by
  unfold findVariable
  rw [h1, h2]

theorem find?_split {α : Type} {p : α → Bool} :
    ∀ {l : List α} {a : α}, l.find? p = some a →
      p a = true ∧ ∃ l1 l2, l = l1 ++ a :: l2 ∧ ∀ x ∈ l1, p x = false := by
  intro l
  induction l with
  | nil => intro a h; cases h
  | cons x xs ih =>
    intro a h
    by_cases hx : p x = true
    · rw [List.find?_cons_of_pos _ hx] at h
      injection h with h2
      subst h2
      exact ⟨hx, [], xs, rfl, fun y hy => absurd hy (List.not_mem_nil y)⟩
    · rw [List.find?_cons_of_neg _ (by simpa using hx)] at h
      obtain ⟨hp, l1, l2, heq, hall⟩ := ih h
      refine ⟨hp, x :: l1, l2, by rw [heq]; rfl, ?_⟩
      intro y hy
      rcases List.mem_cons.mp hy with he | hy2
      · subst he
        simpa using hx
      · exact hall y hy2

/-- Claim C1 (amended): an undeclared variable referenced as a `read`/`write`
argument (via `parseVariable`) produces one soft "Undefined variable" error
— when not suppressed by line-coalescing — and parsing continues normally;
the same holds for an undeclared assignment target ("Undefined variable or
procedure"). In factor position, however, an undeclared identifier raises a
FATAL abort. The claim's own example `begin write(x); end` never reaches
the reference: the mandatory declaration is missing, so it fails earlier
with a mismatch error and a fatal "'(' is not a valid variable name"; the
variant `begin integer a; write(x) end` shows the claimed behaviour. -/
theorem C1_undeclared_reference :
    (∀ (s : PState) (t : Token) (ts : List Token), s.tokens = t :: ts →
      t.type = TokenType.IDENTIFIER → findVariable t.value s = none →
      ∃ s2, parseVariable s = Res.ok s2 ∧ s2.vars = s.vars ∧
        s2.procedures = s.procedures ∧
        (s2.errors = s.errors ∨
          ∃ ln, s2.errors = s.errors ++ [⟨ln, "Undefined variable '" ++ t.value ++ "'"⟩])) ∧
    ((parse 1000 exC1write).map (fun p => (p.1, p.2.errors)) =
      some (false, [⟨1, "Undefined variable 'x'"⟩])) ∧
    ((parse 1000 exC1factor).map (fun p => (p.1, p.2.errors)) =
      some (false, [⟨1, "Undefined variable or procedure 'x' [FATAL]"⟩])) ∧
    ((parse 1000 exC1target).map (fun p => (p.1, p.2.errors)) =
      some (false, [⟨1, "Undefined variable or procedure 'z'"⟩])) := by
  refine ⟨?_, by decide, by decide, by decide⟩
  intro s t ts htk hty hfv
  have htne : ¬ t.type = TokenType.END_OF_LINE := by
    rw [hty]
    decide
  have hm : matchTok .IDENTIFIER none s = .ok (consumeToken s).1 (consumeToken s).2 := by
    unfold matchTok
    rw [htk]
    dsimp only
    rw [if_pos hty]
  have hct := consumeToken_cons_not_eoln htk htne
  have hcf := consumeToken_fields s
  have h1 : (consumeToken s).1 = some t := by rw [hct]
  have hfv2 : findVariable t.value (consumeToken s).2 = none := by
    rw [findVariable_congr t.value hcf.2.1 hcf.2.2.2.1]
    exact hfv
  unfold parseVariable
  rw [hm, h1]
  dsimp only
  rw [hfv2]
  dsimp only [Option.isSome]
  rw [if_neg (by simp)]
  refine ⟨_, rfl, ?_, ?_, ?_⟩
  · rw [(addError_fields _ _).1, hcf.2.1]
  · rw [(addError_fields _ _).2.1, hcf.2.2.1]
  · by_cases hflag : (consumeToken s).2.shouldAddError = true
    · right
      refine ⟨(consumeToken s).2.line, ?_⟩
      rw [addError_flag_true hflag]
      dsimp only
      rw [hcf.1]
    · left
      rw [addError_flag_false (by simpa using hflag)]
      exact hcf.1

/-- Witness for C1: `parseVariable` on the undeclared `x` continues with one
soft error. -/
theorem C1_undeclared_reference_witness :
    ∃ s2, parseVariable (initState [idTok ("x"), eofTok]) = Res.ok s2 ∧
      s2.vars = (initState [idTok ("x"), eofTok]).vars ∧
      s2.procedures = (initState [idTok ("x"), eofTok]).procedures ∧
      (s2.errors = (initState [idTok ("x"), eofTok]).errors ∨
        ∃ ln, s2.errors = (initState [idTok ("x"), eofTok]).errors ++
          [⟨ln, "Undefined variable '" ++ (idTok ("x")).value ++ "'"⟩]) :=
  C1_undeclared_reference.1 (initState [idTok ("x"), eofTok]) (idTok ("x")) [eofTok]
    rfl rfl (by decide)

/-- Counterexample to C1 as stated: on its own example `begin write(x); end`
the error list does not hold an "Undefined variable 'x'" entry at all — the
parse records a declaration-mismatch soft error and aborts fatally before
any reference is resolved. -/
theorem C1_counterexample :
    ((parse 1000 exC1).map (fun p => (p.1, p.2.errors))) =
      some (false, [⟨1, "Expect 'integer', but got 'write'"⟩,
        ⟨1, "'(' is not a valid variable name [FATAL]"⟩]) := by
  decide

/-- Claim C5 (amended): symbol lookup returns the first-declared matching
record, not the nearest-declared one. `findVariable` resolves to the first
kind-0 (local) record with the right name and `level ≤ currentLevel`;
parameter records (kind 1) are never found by variable lookup, so a
parameter reference is reported undefined. `findProcedure` resolves to the
first record with the right name and `level ≤ currentLevel + 1`
(equivalently `level − 1 ≤ currentLevel`). -/
theorem C5_lookup :
    (∀ (s : PState) (nm : String) (v : Variable), findVariable nm s = some v →
      (v ∈ s.vars ∧ v.name = nm ∧ v.kind = 0 ∧ v.level ≤ s.currentLevel) ∧
      ∃ l1 l2, s.vars = l1 ++ v :: l2 ∧
        ∀ u ∈ l1, ¬ (u.name = nm ∧ u.kind = 0 ∧ u.level ≤ s.currentLevel)) ∧
    (∀ (s : PState) (nm : String), findVariable nm s = none ↔
      ∀ v ∈ s.vars, ¬ (v.name = nm ∧ v.kind = 0 ∧ v.level ≤ s.currentLevel)) ∧
    (∀ (s : PState) (nm : String) (v : Variable), v.kind = 1 →
      ¬ findVariable nm s = some v) ∧
    (∀ (s : PState) (nm : String) (p : Procedure), findProcedure nm s = some p →
      p ∈ s.procedures ∧ p.name = nm ∧ p.level ≤ s.currentLevel + 1 ∧
        p.level - 1 ≤ s.currentLevel) ∧
    (∀ (s : PState) (nm : String), findProcedure nm s = none ↔
      ∀ p ∈ s.procedures, ¬ (p.name = nm ∧ p.level ≤ s.currentLevel + 1)) := by
  refine ⟨?_, ?_, ?_, ?_, ?_⟩
  · intro s nm v h
    obtain ⟨hp, l1, l2, heq, hall⟩ := find?_split h
    simp only [Bool.and_eq_true, beq_iff_eq, decide_eq_true_eq] at hp
    refine ⟨⟨List.mem_of_find?_eq_some h, hp.1.1, hp.1.2, hp.2⟩, l1, l2, heq, ?_⟩
    intro u hu hcon
    have htrue : (u.name == nm && u.kind == 0 && decide (u.level ≤ s.currentLevel)) = true := by
      simp [hcon.1, hcon.2.1, hcon.2.2]
    rw [hall u hu] at htrue
    cases htrue
  · intro s nm
    unfold findVariable
    rw [List.find?_eq_none]
    constructor
    · intro h v hv hcon
      have := h v hv
      simp only [Bool.and_eq_true, beq_iff_eq, decide_eq_true_eq] at this
      exact absurd ⟨⟨hcon.1, hcon.2.1⟩, hcon.2.2⟩ this
    · intro h v hv
      simp only [Bool.and_eq_true, beq_iff_eq, decide_eq_true_eq]
      intro hcon
      exact h v hv ⟨hcon.1.1, hcon.1.2, hcon.2⟩
  · intro s nm v hk h
    obtain ⟨hp, _⟩ := find?_split h
    simp only [Bool.and_eq_true, beq_iff_eq, decide_eq_true_eq] at hp
    rw [hk] at hp
    exact absurd hp.1.2 (by decide)
  · intro s nm p h
    have hm := List.mem_of_find?_eq_some h
    obtain ⟨hp, _⟩ := find?_split h
    simp only [Bool.and_eq_true, beq_iff_eq, decide_eq_true_eq] at hp
    exact ⟨hm, hp.1, hp.2, by omega⟩
  · intro s nm
    unfold findProcedure
    rw [List.find?_eq_none]
    constructor
    · intro h p hp hcon
      have := h p hp
      simp only [Bool.and_eq_true, beq_iff_eq, decide_eq_true_eq] at this
      exact absurd ⟨hcon.1, hcon.2⟩ this
    · intro h p hp
      simp only [Bool.and_eq_true, beq_iff_eq, decide_eq_true_eq]
      intro hcon
      exact h p hp ⟨hcon.1, hcon.2⟩

/-- Witness for C5: lookups on a concrete two-entry table. -/
theorem C5_lookup_witness :
    ((⟨"a", "main", 0, "integer", 1, 0⟩ : Variable) ∈ exC5state.vars ∧
      ("a" : String) = "a" ∧ (0 : Nat) = 0 ∧ (1 : Nat) ≤ exC5state.currentLevel) ∧
    ¬ findVariable ("p") { exC5state with
        vars := [⟨"p", "f", 1, "integer", 2, 0⟩] } = some ⟨"p", "f", 1, "integer", 2, 0⟩ :=
  ⟨((C5_lookup.1 exC5state ("a") ⟨"a", "main", 0, "integer", 1, 0⟩ (by decide)).1),
    C5_lookup.2.2.1 { exC5state with vars := [⟨"p", "f", 1, "integer", 2, 0⟩] } "p"
      ⟨"p", "f", 1, "integer", 2, 0⟩ rfl⟩

/-- Counterexample to C5 as stated: (1) a parameter in scope is NOT found —
referencing the parameter `p` inside its own procedure body yields an
"Undefined variable 'p'" error; (2) lookup is first-declared, not
nearest-declared: with an outer and an inner `a` both visible, the outer
(first-declared) record is returned. -/
theorem C5_counterexample :
    ((parse 1000 exC5).map (fun p => (p.1, p.2.errors, p.2.vars)) =
      some (false, [⟨1, "Undefined variable 'p'"⟩],
        [⟨"p", "f", 1, "integer", 2, 0⟩, ⟨"b", "f", 0, "integer", 2, 1⟩])) ∧
    findVariable ("a") exC5state = some ⟨"a", "main", 0, "integer", 1, 0⟩ ∧
    (⟨"a", "f", 0, "integer", 2, 1⟩ : Variable) ∈ exC5state.vars := by
  refine ⟨by decide, by decide, by decide⟩


/-- Claim C6 (amended): a duplicate variable declaration is never added to
the table and never replaces the first record, and it records one "already
declared" error — unless another error was already recorded on the same
line, in which case the diagnostic is suppressed by line-coalescing and no
"already declared" error appears. On the claim's example
`begin integer a; integer a; end` exactly one table entry and exactly one
"already declared" error result (followed by the unrelated fatal error for
the missing execution part). -/
theorem C6_duplicate_declaration :
    (∀ (nm : String) (s : PState) (d : Variable), findDuplicateVariable nm s = some d →
      (registerVariable nm s).vars = s.vars ∧
      (registerVariable nm s).errors =
        (if s.shouldAddError = true then
          s.errors ++ [⟨s.line, "Variable '" ++ nm ++ "' has already been declared"⟩]
        else s.errors)) ∧
    ((parse 1000 exC6spec).map (fun p => (p.2.errors, p.2.vars)) =
      some ([⟨1, "Variable 'a' has already been declared"⟩,
          ⟨1, "Expect executions, but got 'end'. Please move all declarations to the beginning of the procedure [FATAL]"⟩],
        [⟨"a", "main", 0, "integer", 1, 0⟩])) := by
  refine ⟨?_, by decide⟩
  intro nm s d h
  unfold registerVariable
  rw [h]
  constructor
  · exact (addError_fields _ s).1
  · by_cases hflag : s.shouldAddError = true
    · rw [addError_flag_true hflag, if_pos hflag]
    · rw [addError_flag_false (by simpa using hflag), if_neg hflag]

/-- Witness for C6: a duplicate registration against a one-entry table. -/
theorem C6_duplicate_declaration_witness :
    (registerVariable ("a")
        { initState [] with vars := [⟨"a", "main", 0, "integer", 1, 0⟩] }).vars =
      [⟨"a", "main", 0, "integer", 1, 0⟩] ∧
    (registerVariable ("a")
        { initState [] with vars := [⟨"a", "main", 0, "integer", 1, 0⟩] }).errors =
      (if ({ initState [] with
          vars := [⟨"a", "main", 0, "integer", 1, 0⟩] } : PState).shouldAddError = true then
        [⟨1, "Variable '" ++ "a" ++ "' has already been declared"⟩]
      else []) :=
  C6_duplicate_declaration.1 ("a")
    { initState [] with vars := [⟨"a", "main", 0, "integer", 1, 0⟩] }
    ⟨"a", "main", 0, "integer", 1, 0⟩ (by decide)

/-- Counterexample to C6 as stated: the one-line program
`begin integer a 5 integer a; read(a) end` declares `a` twice at the same
level in the same procedure, yet records zero "already declared" errors —
the stray `5` produced the line's first (mismatch) error, so the duplicate
diagnostic was suppressed. The table still keeps exactly one entry. -/
theorem C6_counterexample :
    ((parse 1000 exC6sup).map (fun p => (p.1, p.2.errors, p.2.vars))) =
      some (false, [⟨1, "Expect ';', but got '5'"⟩],
        [⟨"a", "main", 0, "integer", 1, 0⟩]) := by
  decide

/-- Claim C7 (amended): `firstVariableAddress`/`lastVariableAddress` bound
the address range of the procedure's own locals only — registering a
parameter never touches any procedure record, so the parameter's address
(one below `firstVariableAddress` when a parameter and locals exist) is not
included; and the fields are not immutable after the body finishes: a later
declaration whose owning-procedure lookup resolves to the record (as for a
procedure named `main`) still mutates them. -/
theorem C7_address_range :
    (∀ (nm : String) (s : PState), (registerParameter nm s).procedures = s.procedures) ∧
    (∀ (nm : String) (s : PState) (d : Variable), findDuplicateVariable nm s = some d →
      (registerVariable nm s).procedures = s.procedures) ∧
    ((parse 1000 exC7a).map (fun p => (p.1, p.2.vars, p.2.procedures)) =
      some (true,
        [⟨"p", "f", 1, "integer", 2, 0⟩, ⟨"b", "f", 0, "integer", 2, 1⟩],
        [⟨"f", "integer", 2, 1, 1⟩])) := by
  refine ⟨?_, ?_, by decide⟩
  · intro nm s
    unfold registerParameter
    split
    · exact (addError_fields _ s).2.1
    · rfl
  · intro nm s d h
    unfold registerVariable
    rw [h]
    exact (addError_fields _ s).2.1

/-- Witness for C7: a duplicate registration leaves the procedure table
unchanged. -/
theorem C7_address_range_witness :
    (registerVariable ("a")
        { initState [] with
          vars := [⟨"a", "main", 0, "integer", 1, 0⟩],
          procedures := [⟨"f", "integer", 2, -1, -1⟩] }).procedures =
      [⟨"f", "integer", 2, -1, -1⟩] :=
  C7_address_range.2.1 ("a")
    { initState [] with
      vars := [⟨"a", "main", 0, "integer", 1, 0⟩],
      procedures := [⟨"f", "integer", 2, -1, -1⟩] }
    ⟨"a", "main", 0, "integer", 1, 0⟩ (by decide)

/-- Counterexample to C7 as stated: (1) in
`begin integer function f(p); begin integer b; read(b) end; f := 1 end`
the parameter `p` has address 0 but `f`'s recorded range is `[1, 1]` — the
parameter's address is excluded; (2) in the `main`-named variant, the
top-level declaration of `c` (address 2) after the body has finished moves
`lastVariableAddress` from 1 to 2, so the fields are not fixed once the
body ends. -/
theorem C7_counterexample :
    ((parse 1000 exC7a).map (fun p => (p.2.vars, p.2.procedures)) =
      some ([⟨"p", "f", 1, "integer", 2, 0⟩, ⟨"b", "f", 0, "integer", 2, 1⟩],
        [⟨"f", "integer", 2, 1, 1⟩])) ∧
    ((parse 1000 exC7b).map (fun p => (p.1, p.2.vars, p.2.procedures)) =
      some (true,
        [⟨"p", "main", 1, "integer", 2, 0⟩, ⟨"b", "main", 0, "integer", 2, 1⟩,
          ⟨"c", "main", 0, "integer", 1, 2⟩],
        [⟨"main", "integer", 2, 1, 2⟩])) := by
  refine ⟨by decide, by decide⟩

end Fc










